import Mathlib

/-!
Shallow embedding of the `idl-stableswap` program
(`src/programs/idl-stableswap/src/lib.rs`) and proofs about the claims of
its specification.

Machine integers are modelled as `Nat`.  Rust `checked_*` operations on
`u64`/`u128` become partial operations that fail with `MathOverflow`
exactly when the source would; `as u64` truncating casts become `% 2^64`.
Timestamps (`i64`) are modelled as `Int`.  Fallible instructions return
`Except StableSwapError`, matching the source's `Result<_>`; an error
result corresponds to the transaction aborting with no state mutation.
-/

/-- Error taxonomy of the program (`#[error_code] pub enum StableSwapError`). -/
inductive StableSwapError where
  | MathOverflow
  | SlippageExceeded
  | InsufficientLiquidity
  | InvalidMint
  | InvalidOwner
  | PoolPaused
  | Unauthorized
  | ZeroAmount
  | InvariantViolation
  | ConvergenceFailed
  | InvalidAmplification
  | FeeTooHigh
  | NoFeesToWithdraw
  | InvalidAuthority
  | NoTransferPending
  | TimelockNotExpired
  | AmountTooSmall
  | InitialDepositTooSmall
  | TransactionExpired
  | RampTooFast
  | AmpChangeTooLarge
  | VaultBalanceMismatch
  | InvalidFarmingPeriod
  | FarmingPeriodTooShort
  | InsufficientStake
  | NoRewardsToClaim
  | FarmingNotStarted
  | FarmingEnded
  | SlippageTooHigh
  | NoAmpCommitPending
  | AmpCommitDelayNotPassed
  | AmpCommitMismatch
  | AlreadyInitialized
  deriving DecidableEq, Repr

/-- One past the largest `u64` value. -/
def U64 : Nat := 2 ^ 64

/-- One past the largest `u128` value. -/
def U128 : Nat := 2 ^ 128

-- Constants from the source.

def MAX_AMPLIFICATION : Nat := 10000

def MIN_AMPLIFICATION : Nat := 1

def SWAP_FEE_BPS : Nat := 4

def ADMIN_FEE_PERCENT : Nat := 50

def N_COINS : Nat := 2

def MAX_ITERATIONS : Nat := 255

def CONVERGENCE_THRESHOLD : Nat := 1

def MINIMUM_LIQUIDITY : Nat := 1000

def MIN_SWAP_AMOUNT : Nat := 100000

def MIN_INITIAL_DEPOSIT : Nat := 100000000

def MAX_SLIPPAGE_BPS : Nat := 500

def MIGRATION_FEE_MILLI_BPS : Nat := 1337

def REWARD_PRECISION : Nat := 1000000000000

-- Checked arithmetic.  `u64` operations appear directly in instruction
-- bodies and return `Except`; `u128` operations appear inside
-- `checked_*().and_then(..)` chains and return `Option`, converted to a
-- `MathOverflow` failure by `toRes` (the source's `.ok_or(MathOverflow)?`).

/-- Rust `u64::checked_add` followed by `.ok_or(MathOverflow)?`. -/
def cadd64 (x y : Nat) : Except StableSwapError Nat :=
  if x + y < U64 then .ok (x + y) else .error .MathOverflow

/-- Rust `u64::checked_sub` followed by `.ok_or(MathOverflow)?`. -/
def csub64 (x y : Nat) : Except StableSwapError Nat :=
  if y ≤ x then .ok (x - y) else .error .MathOverflow

/-- Rust `u128::checked_mul`. -/
def cmul128 (x y : Nat) : Option Nat :=
  if x * y < U128 then some (x * y) else none

/-- Rust `u128::checked_add`. -/
def cadd128 (x y : Nat) : Option Nat :=
  if x + y < U128 then some (x + y) else none

/-- Rust `u128::checked_sub` (also used for the checked `ann - 1`). -/
def csub (x y : Nat) : Option Nat :=
  if y ≤ x then some (x - y) else none

/-- Rust `u128::checked_div`: fails only on division by zero. -/
def cdiv (x y : Nat) : Option Nat :=
  if y = 0 then none else some (x / y)

/-- The source's `.ok_or(StableSwapError::MathOverflow)?` on an `Option`. -/
def toRes (o : Option Nat) : Except StableSwapError Nat :=
  match o with
  | none => .error .MathOverflow
  | some v => .ok v

/-- The source's `.ok_or(err)?` with a custom error. -/
def toResE (o : Option Nat) (err : StableSwapError) : Except StableSwapError Nat :=
  match o with
  | none => .error err
  | some v => .ok v

/-- Rust's `?` operator on a `Result`: propagate the error, otherwise
continue with the value. -/
def ebind {A B : Type} (x : Except StableSwapError A)
    (f : A → Except StableSwapError B) : Except StableSwapError B :=
  match x with
  | .error e => .error e
  | .ok v => f v

/-- The `StablePool` account.  `Pubkey` fields are modelled as `Nat` with
`Pubkey::default() = 0`; all amount fields are `u64` values; timestamps are
`i64` values modelled as `Int`. -/
structure StablePool where
  authority : Nat
  bags_mint : Nat
  pump_mint : Nat
  bags_vault : Nat
  pump_vault : Nat
  lp_mint : Nat
  amplification : Nat
  initial_amplification : Nat
  target_amplification : Nat
  ramp_start_time : Int
  ramp_stop_time : Int
  swap_fee_bps : Nat
  admin_fee_percent : Nat
  bags_balance : Nat
  pump_balance : Nat
  lp_supply : Nat
  admin_fees_bags : Nat
  admin_fees_pump : Nat
  total_volume_bags : Nat
  total_volume_pump : Nat
  paused : Bool
  bump : Nat
  bags_vault_bump : Nat
  pump_vault_bump : Nat
  lp_mint_bump : Nat
  pending_authority : Option Nat
  authority_transfer_time : Option Int
  pending_amp_commit : Option Nat
  amp_commit_time : Option Int
  deriving DecidableEq, Repr

/-- The `FarmingPeriod` account. -/
structure FarmingPeriod where
  pool : Nat
  reward_mint : Nat
  start_time : Int
  end_time : Int
  reward_per_second : Nat
  total_rewards : Nat
  distributed_rewards : Nat
  last_update_time : Int
  acc_reward_per_share : Nat
  total_staked : Nat
  bump : Nat
  deriving DecidableEq, Repr

/-- The `UserFarmingPosition` account. -/
structure UserFarmingPosition where
  owner : Nat
  farming_period : Nat
  lp_staked : Nat
  reward_debt : Nat
  pending_rewards : Nat
  bump : Nat
  deriving DecidableEq, Repr

/-- `get_current_amplification` (lib.rs:1653).  `now` is the clock's
`unix_timestamp`.  Note the source returns `target.max(amplification)` and
`initial.max(amplification)` in the two constant branches; the final
`current as u64` cast is the `% U64` truncation. -/
def get_current_amplification (pool : StablePool) (now : Int) : Nat :=
  if pool.ramp_stop_time = 0 ∨ now ≥ pool.ramp_stop_time then
    max pool.target_amplification pool.amplification
  else if now ≤ pool.ramp_start_time then
    max pool.initial_amplification pool.amplification
  else
    let elapsed := (now - pool.ramp_start_time).toNat
    let duration := (pool.ramp_stop_time - pool.ramp_start_time).toNat
    let initial := pool.initial_amplification
    let target := pool.target_amplification
    if target > initial then
      (initial + (target - initial) * elapsed / duration) % U64
    else
      (initial - (initial - target) * elapsed / duration) % U64

/-- The specification's piecewise definition of the current amplification
(spec §4.4): `target_amplification` when no ramp is scheduled or past the
stop time, `initial_amplification` before the start time, and the
direction-aware linear interpolation in between. -/
def spec_amplification (pool : StablePool) (now : Int) : Nat :=
  if pool.ramp_stop_time = 0 ∨ now ≥ pool.ramp_stop_time then
    pool.target_amplification
  else if now ≤ pool.ramp_start_time then
    pool.initial_amplification
  else
    let elapsed := (now - pool.ramp_start_time).toNat
    let duration := (pool.ramp_stop_time - pool.ramp_start_time).toNat
    let initial := pool.initial_amplification
    let target := pool.target_amplification
    if target > initial then
      initial + (target - initial) * elapsed / duration
    else
      initial - (initial - target) * elapsed / duration

/-- The amended piecewise specification: as `spec_amplification`, but the
two constant branches return the maximum of the scheduled value and the
base `amplification` field, which is what the source computes. -/
def spec_amplification_base_floor (pool : StablePool) (now : Int) : Nat :=
  if pool.ramp_stop_time = 0 ∨ now ≥ pool.ramp_stop_time then
    max pool.target_amplification pool.amplification
  else if now ≤ pool.ramp_start_time then
    max pool.initial_amplification pool.amplification
  else
    let elapsed := (now - pool.ramp_start_time).toNat
    let duration := (pool.ramp_stop_time - pool.ramp_start_time).toNat
    let initial := pool.initial_amplification
    let target := pool.target_amplification
    if target > initial then
      initial + (target - initial) * elapsed / duration
    else
      initial - (initial - target) * elapsed / duration

/-- One Newton iteration of the `calculate_d` loop body (lib.rs:1699-1743)
after the zero-balance test: computes `D_P` from the two balances, then
`D_next = (Ann*S + D_P*n) * D / ((Ann-1)*D + (n+1)*D_P)`, with every
intermediate operation checked exactly as in the source. -/
def d_step (b p ann s d : Nat) : Except StableSwapError Nat :=
  ebind (toRes ((cmul128 d d).bind fun v =>
      (cmul128 b N_COINS).bind fun w => cdiv v w)) fun dp1 =>
  ebind (toRes ((cmul128 dp1 d).bind fun v =>
      (cmul128 p N_COINS).bind fun w => cdiv v w)) fun dp =>
  ebind (toRes (((cmul128 ann s).bind fun t1 =>
      (cmul128 dp N_COINS).bind fun t2 => cadd128 t1 t2).bind fun t3 =>
      cmul128 t3 d)) fun num =>
  ebind (toRes (((csub ann 1).bind fun u1 => cmul128 u1 d).bind fun u2 =>
      (cmul128 dp (N_COINS + 1)).bind fun u3 => cadd128 u2 u3)) fun den =>
  if den = 0 then .error .MathOverflow
  else ebind (toRes (cdiv num den)) fun d2 => .ok d2

/-- The `for _ in 0..MAX_ITERATIONS` loop of `calculate_d`, with the
per-iteration zero-balance early return and the convergence test
`|D_next - D| ≤ CONVERGENCE_THRESHOLD` of the source.  Exhausting the
fuel yields `ConvergenceFailed`. -/
def d_loop (b p ann s : Nat) : Nat → Nat → Except StableSwapError Nat
  | 0, _ => .error .ConvergenceFailed
  | fuel + 1, d =>
    if b = 0 ∨ p = 0 then .ok 0
    else
      ebind (d_step b p ann s d) fun d2 =>
        if d2 > d then
          if d2 - d ≤ CONVERGENCE_THRESHOLD then .ok d2 else d_loop b p ann s fuel d2
        else
          if d - d2 ≤ CONVERGENCE_THRESHOLD then .ok d2 else d_loop b p ann s fuel d2

/-- `calculate_d` (lib.rs:1684): `D = 0` when both balances are zero,
otherwise Newton's method from the seed `S = b + p` with
`Ann = amplification * n` and at most `MAX_ITERATIONS` iterations. -/
def calculate_d (bags_balance pump_balance amplification : Nat) :
    Except StableSwapError Nat :=
  let s := bags_balance + pump_balance
  if s = 0 then .ok 0
  else d_loop bags_balance pump_balance (amplification * N_COINS) s MAX_ITERATIONS s

/-- The `k`-fold iterate of `d_step` (not part of the source; used to state
what the loop computes). -/
def d_stepN (b p ann s : Nat) : Nat → Nat → Except StableSwapError Nat
  | 0, d => .ok d
  | k + 1, d => ebind (d_step b p ann s d) fun d2 => d_stepN b p ann s k d2

/-- Whether the `calculate_d` Newton iteration converges at step `k`: the
`k`-th and `(k+1)`-th iterates from `seed` both exist and differ by at most
`CONVERGENCE_THRESHOLD`. -/
def d_conv (b p ann s seed k : Nat) : Bool :=
  match d_stepN b p ann s k seed with
  | .error _ => false
  | .ok dk =>
    match d_step b p ann s dk with
    | .error _ => false
    | .ok dk1 => decide (Nat.dist dk1 dk ≤ CONVERGENCE_THRESHOLD)

/-- The constant `c = D^2 / (x*n) * D / (Ann*n)` of `calculate_y`
(lib.rs:1759), with the source's checked-operation chain. -/
def calc_c (x d ann : Nat) : Except StableSwapError Nat :=
  toRes ((((cmul128 d d).bind fun v =>
    (cmul128 x N_COINS).bind fun w => cdiv v w).bind fun v =>
      cmul128 v d).bind fun v =>
        (cmul128 ann N_COINS).bind fun w => cdiv v w)

/-- The constant `b = x + D/Ann` of `calculate_y` (lib.rs:1767). -/
def calc_b (x d ann : Nat) : Except StableSwapError Nat :=
  ebind (toRes (cdiv d ann)) fun q => toRes (cadd128 x q)

/-- One Newton iteration of the `calculate_y` loop body (lib.rs:1775-1805):
`y_next = (y^2 + c) / (2*y + b - D)`. -/
def y_step (c bc d y : Nat) : Except StableSwapError Nat :=
  ebind (toRes ((cmul128 y y).bind fun v => cadd128 v c)) fun num =>
  ebind (toRes (((cmul128 y 2).bind fun v => cadd128 v bc).bind fun v =>
      csub v d)) fun den =>
  if den = 0 then .error .MathOverflow
  else ebind (toRes (cdiv num den)) fun y2 => .ok y2

/-- The `for _ in 0..MAX_ITERATIONS` loop of `calculate_y` with the same
convergence and exhaustion rules as `d_loop`. -/
def y_loop (c bc d : Nat) : Nat → Nat → Except StableSwapError Nat
  | 0, _ => .error .ConvergenceFailed
  | fuel + 1, y =>
    ebind (y_step c bc d y) fun y2 =>
      if y2 > y then
        if y2 - y ≤ CONVERGENCE_THRESHOLD then .ok y2 else y_loop c bc d fuel y2
      else
        if y - y2 ≤ CONVERGENCE_THRESHOLD then .ok y2 else y_loop c bc d fuel y2

/-- `calculate_y` (lib.rs:1750): zero when `D = 0` or `x = 0`, otherwise
Newton's method from `y0 = D`. -/
def calculate_y (x d amplification : Nat) : Except StableSwapError Nat :=
  if d = 0 ∨ x = 0 then .ok 0
  else
    let ann := amplification * N_COINS
    ebind (calc_c x d ann) fun c =>
    ebind (calc_b x d ann) fun bc => y_loop c bc d MAX_ITERATIONS d

/-- The `k`-fold iterate of `y_step`. -/
def y_stepN (c bc d : Nat) : Nat → Nat → Except StableSwapError Nat
  | 0, y => .ok y
  | k + 1, y => ebind (y_step c bc d y) fun y2 => y_stepN c bc d k y2

/-- Whether the `calculate_y` Newton iteration converges at step `k`. -/
def y_conv (c bc d seed k : Nat) : Bool :=
  match y_stepN c bc d k seed with
  | .error _ => false
  | .ok yk =>
    match y_step c bc d yk with
    | .error _ => false
    | .ok yk1 => decide (Nat.dist yk1 yk ≤ CONVERGENCE_THRESHOLD)

/-- `calculate_swap_output` (lib.rs:1812): gross output
`dy = y_old - y_new` for a trade of `amount_in` in the given direction. -/
def calculate_swap_output (bags_balance pump_balance amount_in amplification : Nat)
    (bags_to_pump : Bool) : Except StableSwapError Nat :=
  ebind (calculate_d bags_balance pump_balance amplification) fun d =>
    let x_new := if bags_to_pump then bags_balance + amount_in else pump_balance + amount_in
    let y_old := if bags_to_pump then pump_balance else bags_balance
    ebind (calculate_y x_new d amplification) fun y_new =>
    ebind (toRes (csub y_old y_new)) fun dy => .ok (dy % U64)

/-- `swap_bags_to_pump` (lib.rs:1119).  `bagsVault`/`pumpVault` are the
external token-account balances, `now` the clock timestamp.  On success
returns the updated pool and the net amount sent to the user. -/
def swap_bags_to_pump (pool : StablePool) (bagsVault pumpVault : Nat) (now : Int)
    (amount_in min_amount_out : Nat) (deadline : Int) :
    Except StableSwapError (StablePool × Nat) :=
  if pool.paused then .error .PoolPaused
  else if amount_in < MIN_SWAP_AMOUNT then .error .AmountTooSmall
  else
    let min_allowed := amount_in * (10000 - MAX_SLIPPAGE_BPS) / 10000 % U64
    if min_amount_out < min_allowed then .error .SlippageTooHigh
    else if deadline < now then .error .TransactionExpired
    else if bagsVault < pool.bags_balance then .error .VaultBalanceMismatch
    else if pumpVault < pool.pump_balance then .error .VaultBalanceMismatch
    else
      let current_amp := get_current_amplification pool now
      ebind (calculate_swap_output pool.bags_balance pool.pump_balance amount_in
          current_amp true) fun amount_out =>
        let fee := amount_out * pool.swap_fee_bps / 10000
        let admin_fee := fee * pool.admin_fee_percent % U128 / 100
        let amount_out_after_fee := (amount_out + U64 - fee % U64) % U64
        if amount_out_after_fee < min_amount_out then .error .SlippageExceeded
        else if pool.pump_balance < amount_out_after_fee then .error .InsufficientLiquidity
        else
          ebind (cadd64 pool.bags_balance amount_in) fun nb =>
          ebind (csub64 pool.pump_balance amount_out) fun np =>
          ebind (cadd64 pool.admin_fees_pump (admin_fee % U64)) fun nfp =>
          ebind (cadd64 pool.total_volume_bags amount_in) fun nvb =>
          .ok ({ pool with
                  bags_balance := nb
                  pump_balance := np
                  admin_fees_pump := nfp
                  total_volume_bags := nvb },
               amount_out_after_fee)

/-- `swap_pump_to_bags` (lib.rs:1223): mirror image of
`swap_bags_to_pump`. -/
def swap_pump_to_bags (pool : StablePool) (bagsVault pumpVault : Nat) (now : Int)
    (amount_in min_amount_out : Nat) (deadline : Int) :
    Except StableSwapError (StablePool × Nat) :=
  if pool.paused then .error .PoolPaused
  else if amount_in < MIN_SWAP_AMOUNT then .error .AmountTooSmall
  else
    let min_allowed := amount_in * (10000 - MAX_SLIPPAGE_BPS) / 10000 % U64
    if min_amount_out < min_allowed then .error .SlippageTooHigh
    else if deadline < now then .error .TransactionExpired
    else if bagsVault < pool.bags_balance then .error .VaultBalanceMismatch
    else if pumpVault < pool.pump_balance then .error .VaultBalanceMismatch
    else
      let current_amp := get_current_amplification pool now
      ebind (calculate_swap_output pool.bags_balance pool.pump_balance amount_in
          current_amp false) fun amount_out =>
        let fee := amount_out * pool.swap_fee_bps / 10000
        let admin_fee := fee * pool.admin_fee_percent % U128 / 100
        let amount_out_after_fee := (amount_out + U64 - fee % U64) % U64
        if amount_out_after_fee < min_amount_out then .error .SlippageExceeded
        else if pool.bags_balance < amount_out_after_fee then .error .InsufficientLiquidity
        else
          ebind (cadd64 pool.pump_balance amount_in) fun np =>
          ebind (csub64 pool.bags_balance amount_out) fun nb =>
          ebind (cadd64 pool.admin_fees_bags (admin_fee % U64)) fun nfb =>
          ebind (cadd64 pool.total_volume_pump amount_in) fun nvp =>
          .ok ({ pool with
                  pump_balance := np
                  bags_balance := nb
                  admin_fees_bags := nfb
                  total_volume_pump := nvp },
               amount_out_after_fee)

/-- `migrate_bags_to_pump` (lib.rs:680): flat 0.1337% fee, 1:1 rate. -/
def migrate_bags_to_pump (pool : StablePool) (bagsVault pumpVault : Nat) (now : Int)
    (amount_in min_amount_out : Nat) (deadline : Int) :
    Except StableSwapError (StablePool × Nat) :=
  if pool.paused then .error .PoolPaused
  else if amount_in < MIN_SWAP_AMOUNT then .error .AmountTooSmall
  else
    let min_allowed := amount_in * (10000 - MAX_SLIPPAGE_BPS) / 10000 % U64
    if min_amount_out < min_allowed then .error .SlippageTooHigh
    else if deadline < now then .error .TransactionExpired
    else if bagsVault < pool.bags_balance then .error .VaultBalanceMismatch
    else if pumpVault < pool.pump_balance then .error .VaultBalanceMismatch
    else
      ebind (toRes ((cmul128 amount_in MIGRATION_FEE_MILLI_BPS).bind fun v =>
          cdiv v 1000000)) fun fee128 =>
        let fee := fee128 % U64
        ebind (csub64 amount_in fee) fun amount_out =>
          let admin_fee := fee * pool.admin_fee_percent % U128 / 100 % U64
          if amount_out < min_amount_out then .error .SlippageExceeded
          else if pool.pump_balance < amount_out then .error .InsufficientLiquidity
          else
            ebind (cadd64 pool.bags_balance amount_in) fun nb =>
            ebind (csub64 pool.pump_balance amount_out) fun np =>
            ebind (cadd64 pool.admin_fees_pump admin_fee) fun nfp =>
            ebind (cadd64 pool.total_volume_bags amount_in) fun nvb =>
            .ok ({ pool with
                    bags_balance := nb
                    pump_balance := np
                    admin_fees_pump := nfp
                    total_volume_bags := nvb },
                 amount_out)

/-- `migrate_pump_to_bags` (lib.rs:776): mirror image of
`migrate_bags_to_pump`. -/
def migrate_pump_to_bags (pool : StablePool) (bagsVault pumpVault : Nat) (now : Int)
    (amount_in min_amount_out : Nat) (deadline : Int) :
    Except StableSwapError (StablePool × Nat) :=
  if pool.paused then .error .PoolPaused
  else if amount_in < MIN_SWAP_AMOUNT then .error .AmountTooSmall
  else
    let min_allowed := amount_in * (10000 - MAX_SLIPPAGE_BPS) / 10000 % U64
    if min_amount_out < min_allowed then .error .SlippageTooHigh
    else if deadline < now then .error .TransactionExpired
    else if bagsVault < pool.bags_balance then .error .VaultBalanceMismatch
    else if pumpVault < pool.pump_balance then .error .VaultBalanceMismatch
    else
      ebind (toRes ((cmul128 amount_in MIGRATION_FEE_MILLI_BPS).bind fun v =>
          cdiv v 1000000)) fun fee128 =>
        let fee := fee128 % U64
        ebind (csub64 amount_in fee) fun amount_out =>
          let admin_fee := fee * pool.admin_fee_percent % U128 / 100 % U64
          if amount_out < min_amount_out then .error .SlippageExceeded
          else if pool.bags_balance < amount_out then .error .InsufficientLiquidity
          else
            ebind (cadd64 pool.pump_balance amount_in) fun np =>
            ebind (csub64 pool.bags_balance amount_out) fun nb =>
            ebind (cadd64 pool.admin_fees_bags admin_fee) fun nfb =>
            ebind (cadd64 pool.total_volume_pump amount_in) fun nvp =>
            .ok ({ pool with
                    pump_balance := np
                    bags_balance := nb
                    admin_fees_bags := nfb
                    total_volume_pump := nvp },
                 amount_out)

/-- The common tail of `add_liquidity` (lib.rs:352-392): the `min_lp`
slippage check, the LP-supply update (with the `MINIMUM_LIQUIDITY` lock on
a first deposit), and the admin share of the imbalance fees. -/
def add_liquidity_finish (pool : StablePool) (new_bags new_pump : Nat)
    (min_lp_amount lp_amount fee_b fee_p : Nat) (is_first : Bool) :
    Except StableSwapError (StablePool × Nat) :=
  if lp_amount < min_lp_amount then .error .SlippageExceeded
  else
    ebind (if is_first then cadd64 MINIMUM_LIQUIDITY lp_amount
           else cadd64 pool.lp_supply lp_amount) fun ns =>
    ebind (cadd64 pool.admin_fees_bags (fee_b * ADMIN_FEE_PERCENT / 100)) fun nfb =>
    ebind (cadd64 pool.admin_fees_pump (fee_p * ADMIN_FEE_PERCENT / 100)) fun nfp =>
    .ok ({ pool with
            bags_balance := new_bags
            pump_balance := new_pump
            lp_supply := ns
            admin_fees_bags := nfb
            admin_fees_pump := nfp },
         lp_amount)

/-- `add_liquidity` (lib.rs:229).  Two-sided deposit: mints LP in
proportion to the growth of the invariant `D`, charging an imbalance fee
on non-proportional deposits.  Returns the updated pool and the LP amount
minted to the user. -/
def add_liquidity (pool : StablePool) (bagsVault pumpVault : Nat) (now : Int)
    (bags_amount pump_amount min_lp_amount : Nat) :
    Except StableSwapError (StablePool × Nat) :=
  if pool.paused then .error .PoolPaused
  else if ¬(bags_amount > 0 ∨ pump_amount > 0) then .error .ZeroAmount
  else if pool.lp_supply = 0 ∧
      ¬(bags_amount ≥ MIN_INITIAL_DEPOSIT ∧ pump_amount ≥ MIN_INITIAL_DEPOSIT) then
    .error .InitialDepositTooSmall
  else if bagsVault < pool.bags_balance then .error .VaultBalanceMismatch
  else if pumpVault < pool.pump_balance then .error .VaultBalanceMismatch
  else
    let current_amp := get_current_amplification pool now
    ebind (calculate_d pool.bags_balance pool.pump_balance current_amp) fun d0 =>
    ebind (cadd64 pool.bags_balance bags_amount) fun new_bags =>
    ebind (cadd64 pool.pump_balance pump_amount) fun new_pump =>
    ebind (calculate_d new_bags new_pump current_amp) fun d1 =>
    if ¬(d1 > d0) then .error .InvariantViolation
    else if pool.lp_supply = 0 then
      ebind (toResE (csub d1 MINIMUM_LIQUIDITY) .InsufficientLiquidity) fun initial_lp =>
        add_liquidity_finish pool new_bags new_pump min_lp_amount
          (initial_lp % U64) 0 0 true
    else
      ebind (toRes ((cmul128 (d1 - d0) pool.lp_supply).bind fun v =>
          cdiv v d0)) fun lp128 =>
      ebind (toRes ((cmul128 pool.bags_balance d1).bind fun v =>
          cdiv v d0)) fun ib =>
      ebind (toRes ((cmul128 pool.pump_balance d1).bind fun v =>
          cdiv v d0)) fun ip =>
        let ideal_bags := ib % U64
        let ideal_pump := ip % U64
        let bags_diff :=
          if new_bags > ideal_bags then new_bags - ideal_bags
          else ideal_bags - new_bags
        let pump_diff :=
          if new_pump > ideal_pump then new_pump - ideal_pump
          else ideal_pump - new_pump
        let fee_b := bags_diff * SWAP_FEE_BPS / 10000 % U64
        let fee_p := pump_diff * SWAP_FEE_BPS / 10000 % U64
        add_liquidity_finish pool new_bags new_pump min_lp_amount
          (lp128 % U64) fee_b fee_p false

/-- `add_liquidity_single_sided` (lib.rs:550).  Single-sided deposit for
the migration pool; `user_token_mint` is the mint of the user's token
account.  Returns the updated pool and the LP amount minted. -/
def add_liquidity_single_sided (pool : StablePool) (user_token_mint : Nat)
    (amount : Nat) (is_bags : Bool) (min_lp_amount : Nat) :
    Except StableSwapError (StablePool × Nat) :=
  if pool.paused then .error .PoolPaused
  else if amount = 0 then .error .ZeroAmount
  else if amount < MIN_SWAP_AMOUNT then .error .AmountTooSmall
  else if is_bags ∧ user_token_mint ≠ pool.bags_mint then .error .InvalidMint
  else if ¬is_bags ∧ user_token_mint ≠ pool.pump_mint then .error .InvalidMint
  else
    ebind (cadd64 pool.bags_balance pool.pump_balance) fun total_pool_value =>
    ebind (if pool.lp_supply = 0 then
            if amount < MIN_INITIAL_DEPOSIT then .error .InitialDepositTooSmall
            else toResE (csub amount MINIMUM_LIQUIDITY) .InitialDepositTooSmall
          else if total_pool_value = 0 then .error .InsufficientLiquidity
          else
            ebind (toRes ((cmul128 amount pool.lp_supply).bind fun v =>
                cdiv v total_pool_value)) fun v => .ok (v % U64)) fun lp_amount =>
    if lp_amount < min_lp_amount then .error .SlippageExceeded
    else
      ebind (if pool.lp_supply > 0 ∧ total_pool_value > 0 then
              let expected_lp :=
                (((cmul128 amount pool.lp_supply).bind fun v =>
                  cdiv v total_pool_value).getD 0) % U64
              let min_allowed := expected_lp * (10000 - MAX_SLIPPAGE_BPS) / 10000 % U64
              if min_lp_amount < min_allowed then .error .SlippageTooHigh else .ok 0
            else .ok 0) fun _ =>
      ebind (if is_bags then cadd64 pool.bags_balance amount
             else cadd64 pool.pump_balance amount) fun nbal =>
      ebind (cadd64 pool.lp_supply lp_amount) fun ns =>
      if is_bags then
        .ok ({ pool with bags_balance := nbal, lp_supply := ns }, lp_amount)
      else
        .ok ({ pool with pump_balance := nbal, lp_supply := ns }, lp_amount)

/-- `update_farming_rewards` (lib.rs:1582): advances the precision-scaled
reward-per-share accumulator up to `min now end_time`. -/
def update_farming_rewards (period : FarmingPeriod) (now : Int) :
    Except StableSwapError FarmingPeriod :=
  if now < period.start_time then .ok period
  else if period.total_staked = 0 then
    .ok { period with last_update_time := max now period.start_time }
  else
    let effective_time := min now period.end_time
    if effective_time ≤ period.last_update_time then .ok period
    else
      let time_elapsed := (effective_time - period.last_update_time).toNat
      ebind (toRes (cmul128 period.reward_per_second time_elapsed)) fun rewards =>
      ebind (toRes ((cmul128 rewards REWARD_PRECISION).bind fun v =>
          cdiv v period.total_staked)) fun inc =>
      ebind (toRes (cadd128 period.acc_reward_per_share inc)) fun acc =>
      .ok { period with acc_reward_per_share := acc,
                        last_update_time := effective_time }

/-- `calculate_pending_rewards` (lib.rs:1621): accumulated share minus
reward debt, with saturating subtraction and a final `as u64` cast. -/
def calculate_pending_rewards (position : UserFarmingPosition)
    (period : FarmingPeriod) : Except StableSwapError Nat :=
  if position.lp_staked = 0 then .ok 0
  else
    ebind (toRes ((cmul128 position.lp_staked period.acc_reward_per_share).bind fun v =>
        cdiv v REWARD_PRECISION)) fun accumulated =>
      .ok ((accumulated - position.reward_debt) % U64)

/-- `calculate_reward_debt` (lib.rs:1639). -/
def calculate_reward_debt (lp_staked acc_reward_per_share : Nat) :
    Except StableSwapError Nat :=
  ebind (toRes ((cmul128 lp_staked acc_reward_per_share).bind fun v =>
      cdiv v REWARD_PRECISION)) fun debt => .ok (debt % U64)

/-- `claim_farming_rewards` (lib.rs:1061): updates accrual, banks pending
rewards, pays them out, and resets the position's debt.  Returns the new
position, the new period, and the amount paid. -/
def claim_farming_rewards (position : UserFarmingPosition)
    (period : FarmingPeriod) (now : Int) :
    Except StableSwapError (UserFarmingPosition × FarmingPeriod × Nat) :=
  ebind (update_farming_rewards period now) fun per1 =>
  ebind (calculate_pending_rewards position per1) fun pending_new =>
  ebind (cadd64 position.pending_rewards pending_new) fun total_pending =>
  if total_pending = 0 then .error .NoRewardsToClaim
  else
    ebind (calculate_reward_debt position.lp_staked per1.acc_reward_per_share) fun debt =>
    ebind (cadd64 per1.distributed_rewards total_pending) fun dist =>
    .ok ({ position with pending_rewards := 0, reward_debt := debt },
         { per1 with distributed_rewards := dist },
         total_pending)

/-- `create_pool` (lib.rs:104): step 1 of pool setup.  Vault and LP-mint
keys are left at `Pubkey::default()` (0) and the pool is created paused. -/
def create_pool (authority bags_mint pump_mint : Nat) (amplification : Nat)
    (bump : Nat) : Except StableSwapError StablePool :=
  if ¬(amplification ≥ MIN_AMPLIFICATION ∧ amplification ≤ MAX_AMPLIFICATION) then
    .error .InvalidAmplification
  else
    .ok { authority := authority
          bags_mint := bags_mint
          pump_mint := pump_mint
          bags_vault := 0
          pump_vault := 0
          lp_mint := 0
          amplification := amplification
          initial_amplification := amplification
          target_amplification := amplification
          ramp_start_time := 0
          ramp_stop_time := 0
          swap_fee_bps := SWAP_FEE_BPS
          admin_fee_percent := ADMIN_FEE_PERCENT
          bags_balance := 0
          pump_balance := 0
          lp_supply := 0
          admin_fees_bags := 0
          admin_fees_pump := 0
          total_volume_bags := 0
          total_volume_pump := 0
          paused := true
          bump := bump
          bags_vault_bump := 0
          pump_vault_bump := 0
          lp_mint_bump := 0
          pending_authority := none
          authority_transfer_time := none
          pending_amp_commit := none
          amp_commit_time := none }

/-- `init_vaults` (lib.rs:153): step 2 of pool setup.  Rejects with
`AlreadyInitialized` unless `bags_vault` is still `Pubkey::default()`,
then records the vault keys and unpauses the pool. -/
def init_vaults (pool : StablePool) (bags_vault pump_vault lp_mint : Nat)
    (bags_vault_bump pump_vault_bump lp_mint_bump : Nat) :
    Except StableSwapError StablePool :=
  if pool.bags_vault ≠ 0 then .error .AlreadyInitialized
  else
    .ok { pool with
            bags_vault := bags_vault
            pump_vault := pump_vault
            lp_mint := lp_mint
            bags_vault_bump := bags_vault_bump
            pump_vault_bump := pump_vault_bump
            lp_mint_bump := lp_mint_bump
            paused := false }

/-- `update_swap_fee` (lib.rs:1432): admin fee update capped at 100 bps. -/
def update_swap_fee (pool : StablePool) (new_fee_bps : Nat) :
    Except StableSwapError StablePool :=
  if ¬(new_fee_bps ≤ 100) then .error .FeeTooHigh
  else .ok { pool with swap_fee_bps := new_fee_bps }

-- Concrete states used by counterexamples and witnesses.

/-- A live balanced pool with the default parameters: amplification 1000,
no ramp scheduled, 4 bps fee, 50% admin share, 10^9 of each token tracked,
2*10^9 LP outstanding. -/
def readyPool : StablePool :=
  { authority := 1
    bags_mint := 10
    pump_mint := 11
    bags_vault := 20
    pump_vault := 21
    lp_mint := 30
    amplification := 1000
    initial_amplification := 1000
    target_amplification := 1000
    ramp_start_time := 0
    ramp_stop_time := 0
    swap_fee_bps := 4
    admin_fee_percent := 50
    bags_balance := 1000000000
    pump_balance := 1000000000
    lp_supply := 2000000000
    admin_fees_bags := 0
    admin_fees_pump := 0
    total_volume_bags := 0
    total_volume_pump := 0
    paused := false
    bump := 255
    bags_vault_bump := 254
    pump_vault_bump := 253
    lp_mint_bump := 252
    pending_authority := none
    authority_transfer_time := none
    pending_amp_commit := none
    amp_commit_time := none }

/-- The pool state after a completed downward ramp: the base
`amplification` field still holds the pre-ramp value 1000 while the ramp
schedule has been consumed (`ramp_stop_time = 0`) with target 500. -/
def staleBasePool : StablePool :=
  { readyPool with
      initial_amplification := 500
      target_amplification := 500 }

/-- A tiny flat pool (balances 1/1, `lp_supply = 1024`, amplification 1)
whose invariant can grow by a factor large enough that the proportional
LP-mint quantity reaches `2^64`. -/
def hugeGrowthPool : StablePool :=
  { readyPool with
      amplification := 1
      initial_amplification := 1
      target_amplification := 1
      bags_balance := 1
      pump_balance := 1
      lp_supply := 1024 }

/-- The pool state produced by depositing `2^54` of each token into
`hugeGrowthPool`: the balances grow but the minted LP — and hence
`lp_supply` — does not, because the mint quantity `2^64` is cast to `u64`. -/
def hugeGrowthPoolAfter : StablePool :=
  { hugeGrowthPool with
      bags_balance := 2 ^ 54 + 1
      pump_balance := 2 ^ 54 + 1 }

/-- A pool in the middle of the spec's example ramp: 1000 → 2000 over
100000 seconds starting at time 0. -/
def rampPool : StablePool :=
  { readyPool with
      initial_amplification := 1000
      target_amplification := 2000
      ramp_start_time := 0
      ramp_stop_time := 100000 }

/-- An empty unpaused pool about to receive its first deposit. -/
def firstDepositPool : StablePool :=
  { readyPool with
      bags_balance := 0
      pump_balance := 0
      lp_supply := 0 }

/-- The pool state the source produces from the first single-sided deposit
of `MIN_INITIAL_DEPOSIT` BAGS into `firstDepositPool`. -/
def firstDepositPoolAfter : StablePool :=
  { firstDepositPool with
      bags_balance := 100000000
      lp_supply := 99999000 }

/-- `readyPool` after a balanced two-sided deposit of 10^9 + 10^9. -/
def readyPoolAfterDeposit : StablePool :=
  { readyPool with
      bags_balance := 2000000000
      pump_balance := 2000000000
      lp_supply := 4000000000 }

/-- `readyPool` after swapping 10^6 BAGS for PUMP. -/
def readyPoolAfterSwap : StablePool :=
  { readyPool with
      bags_balance := 1001000000
      pump_balance := 999000000
      admin_fees_pump := 200
      total_volume_bags := 1000000 }

/-- A farming period with a single staker: `reward_per_second = 10`,
`total_staked = 100`, freshly updated at its start time `s`. -/
def singleStakerPeriod (s e : Int) : FarmingPeriod :=
  { pool := 3
    reward_mint := 4
    start_time := s
    end_time := e
    reward_per_second := 10
    total_rewards := 10000000
    distributed_rewards := 0
    last_update_time := s
    acc_reward_per_share := 0
    total_staked := 100
    bump := 250 }

/-- The single staker's position right after staking 100 LP at time `s`:
zero debt, zero banked rewards. -/
def singleStakerPos : UserFarmingPosition :=
  { owner := 7
    farming_period := 8
    lp_staked := 100
    reward_debt := 0
    pending_rewards := 0
    bump := 249 }

/-- All swap and deposit entry points reject the pool `p` with
`PoolPaused`, whatever their arguments. -/
def rejects_when_paused (p : StablePool) : Prop :=
  (∀ v1 v2 now ba pa ml, add_liquidity p v1 v2 now ba pa ml = .error .PoolPaused) ∧
  (∀ m a ib ml, add_liquidity_single_sided p m a ib ml = .error .PoolPaused) ∧
  (∀ v1 v2 now ai mo dl, swap_bags_to_pump p v1 v2 now ai mo dl = .error .PoolPaused) ∧
  (∀ v1 v2 now ai mo dl, swap_pump_to_bags p v1 v2 now ai mo dl = .error .PoolPaused) ∧
  (∀ v1 v2 now ai mo dl, migrate_bags_to_pump p v1 v2 now ai mo dl = .error .PoolPaused) ∧
  (∀ v1 v2 now ai mo dl, migrate_pump_to_bags p v1 v2 now ai mo dl = .error .PoolPaused)

/-- The pool record produced by `create_pool 1 10 11 1000 255`: empty,
paused, with all vault keys still at `Pubkey::default()`. -/
def createdPool : StablePool :=
  { readyPool with
      bags_vault := 0
      pump_vault := 0
      lp_mint := 0
      bags_balance := 0
      pump_balance := 0
      lp_supply := 0
      bags_vault_bump := 0
      pump_vault_bump := 0
      lp_mint_bump := 0
      paused := true }

/-- `singleStakerPeriod s e` after accrual up to `s + 1000`: the
accumulator holds `10 * 1000 * REWARD_PRECISION / 100`. -/
def singleStakerPeriodAfter (s e : Int) : FarmingPeriod :=
  { singleStakerPeriod s e with
      acc_reward_per_share := 100000000000000
      last_update_time := s + 1000 }

/-- The staker's position after claiming: rewards zeroed, debt reset. -/
def singleStakerPosPaid : UserFarmingPosition :=
  { singleStakerPos with reward_debt := 10000 }

/-- The farming period after the claim paid out 10000 units. -/
def singleStakerPeriodPaid (s e : Int) : FarmingPeriod :=
  { singleStakerPeriodAfter s e with distributed_rewards := 10000 }

/-- Computation rule for `ebind` on a success value. -/
theorem ebind_ok {A B : Type} (v : A) (f : A → Except StableSwapError B) :
    ebind (.ok v) f = f v := rfl

/-- Computation rule for `ebind` on an error. -/
theorem ebind_error {A B : Type} (e : StableSwapError)
    (f : A → Except StableSwapError B) : ebind (.error e) f = .error e := rfl

/-- Inversion: a successful `ebind` came from a successful first stage. -/
theorem ebind_ok_inv {A B : Type} {x : Except StableSwapError A}
    {f : A → Except StableSwapError B} {y : B} (h : ebind x f = .ok y) :
    ∃ v, x = .ok v ∧ f v = .ok y := by
  cases x with
  | error e => exact absurd h (by simp [ebind])
  | ok v => exact ⟨v, rfl, h⟩

/-- C1 (counterexample): after a completed downward ramp the base
`amplification` field (1000) still dominates the scheduled target (500),
so `get_current_amplification` disagrees with the spec's piecewise
definition, which returns `target_amplification` outright. -/
theorem get_current_amplification_ne_spec_at_stale_base :
    get_current_amplification staleBasePool 0 = 1000 ∧
    spec_amplification staleBasePool 0 = 500 ∧
    get_current_amplification staleBasePool 0 ≠ spec_amplification staleBasePool 0 :=
  ⟨rfl, rfl, by decide⟩

/-- C1 (amended): `get_current_amplification(now)` equals the spec's
piecewise definition with the two constant branches amended to take the
maximum of the scheduled value and the base `amplification` field:
`max target amplification` when no ramp is scheduled or `now ≥
ramp_stop_time`, `max initial amplification` when `now ≤ ramp_start_time`,
and the direction-aware linear interpolation
`initial ± (|target - initial|) * (now - ramp_start) / (ramp_stop -
ramp_start)` strictly inside the ramp window. -/
theorem get_current_amplification_matches_spec_with_base_floor
    (pool : StablePool) (now : Int)
    (hI : pool.initial_amplification < U64)
    (hT : pool.target_amplification < U64) :
    get_current_amplification pool now = spec_amplification_base_floor pool now := by
  unfold get_current_amplification spec_amplification_base_floor
  split
  · rfl
  · split
    · rfl
    · rename_i h1 h2
      have hstop : now < pool.ramp_stop_time := by
        push_neg at h1
        exact h1.2
      have hstart : pool.ramp_start_time < now := by
        push_neg at h2
        exact h2
      have hdurpos : 0 < (pool.ramp_stop_time - pool.ramp_start_time).toNat := by
        omega
      have hedur : (now - pool.ramp_start_time).toNat ≤
          (pool.ramp_stop_time - pool.ramp_start_time).toNat := by
        omega
      simp only
      split
      · rename_i hlt
        refine Nat.mod_eq_of_lt ?_
        have hle : (pool.target_amplification - pool.initial_amplification) *
            (now - pool.ramp_start_time).toNat /
            (pool.ramp_stop_time - pool.ramp_start_time).toNat ≤
            pool.target_amplification - pool.initial_amplification := by
          calc (pool.target_amplification - pool.initial_amplification) *
              (now - pool.ramp_start_time).toNat /
              (pool.ramp_stop_time - pool.ramp_start_time).toNat
              ≤ (pool.target_amplification - pool.initial_amplification) *
                (pool.ramp_stop_time - pool.ramp_start_time).toNat /
                (pool.ramp_stop_time - pool.ramp_start_time).toNat :=
                Nat.div_le_div_right (Nat.mul_le_mul_left _ hedur)
            _ = pool.target_amplification - pool.initial_amplification :=
                Nat.mul_div_cancel _ hdurpos
        omega
      · refine Nat.mod_eq_of_lt ?_
        have := Nat.sub_le pool.initial_amplification
          ((pool.initial_amplification - pool.target_amplification) *
            (now - pool.ramp_start_time).toNat /
            (pool.ramp_stop_time - pool.ramp_start_time).toNat)
        omega

/-- C1 (witness): the amended equation instantiated at the spec's example
ramp `1000 → 2000` over `100000` seconds, evaluated at the midpoint, where
both sides give exactly 1500. -/
theorem get_current_amplification_matches_spec_with_base_floor_witness :
    rampPool.initial_amplification < U64 ∧ rampPool.target_amplification < U64 ∧
    get_current_amplification rampPool 50000 = spec_amplification_base_floor rampPool 50000 ∧
    get_current_amplification rampPool 50000 = 1500 :=
  ⟨by decide, by decide,
   get_current_amplification_matches_spec_with_base_floor rampPool 50000
     (by decide) (by decide), rfl⟩

/-- C2 (code-bug evaluation): the first single-sided deposit of exactly
`MIN_INITIAL_DEPOSIT` mints `amount - MINIMUM_LIQUIDITY` to the depositor
but leaves `lp_supply` equal to just that minted amount — unlike the
two-sided first deposit (and the source's own comment), nothing extra is
added to the supply for the locked `MINIMUM_LIQUIDITY`. -/
theorem single_sided_first_deposit_supply_omits_lock :
    add_liquidity_single_sided firstDepositPool 10 MIN_INITIAL_DEPOSIT true 0 =
      .ok (firstDepositPoolAfter, MIN_INITIAL_DEPOSIT - MINIMUM_LIQUIDITY) ∧
    firstDepositPoolAfter.lp_supply = MIN_INITIAL_DEPOSIT - MINIMUM_LIQUIDITY ∧
    firstDepositPoolAfter.lp_supply ≠
      MINIMUM_LIQUIDITY + (MIN_INITIAL_DEPOSIT - MINIMUM_LIQUIDITY) :=
  ⟨rfl, rfl, by decide⟩

/-- C9: `update_swap_fee` rejects any `new_fee_bps > 100` with
`FeeTooHigh` (leaving the pool untouched, since a failing instruction
aborts) and for `new_fee_bps ≤ 100` sets `swap_fee_bps` to exactly the
requested value, changing nothing else. -/
theorem update_swap_fee_cap (pool : StablePool) (new_fee_bps : Nat) :
    (100 < new_fee_bps → update_swap_fee pool new_fee_bps = .error .FeeTooHigh) ∧
    (new_fee_bps ≤ 100 →
      update_swap_fee pool new_fee_bps = .ok { pool with swap_fee_bps := new_fee_bps }) := by
  constructor
  · intro h
    simp [update_swap_fee, Nat.lt_iff_add_one_le.mp h]
    omega
  · intro h
    simp [update_swap_fee, h]

/-- C9 (witness): the cap instantiated on `readyPool` at 101 bps
(rejected) and 7 bps (accepted). -/
theorem update_swap_fee_cap_witness :
    update_swap_fee readyPool 101 = .error .FeeTooHigh ∧
    update_swap_fee readyPool 7 = .ok { readyPool with swap_fee_bps := 7 } :=
  ⟨(update_swap_fee_cap readyPool 101).1 (by decide),
   (update_swap_fee_cap readyPool 7).2 (by decide)⟩

/-- C10: `create_pool` always leaves the pool with `paused = true`, so
every swap and deposit entry point rejects with `PoolPaused` between the
two setup steps; `init_vaults` sets `paused = false` exactly once — a
second `init_vaults` call fails with `AlreadyInitialized` because the
vault key is no longer `Pubkey::default()`. -/
theorem pool_setup_pause_handshake
    (authority bags_mint pump_mint amp bump : Nat) (p : StablePool)
    (hc : create_pool authority bags_mint pump_mint amp bump = .ok p) :
    p.paused = true ∧ rejects_when_paused p ∧
    ∀ bv pv lm b1 b2 b3, bv ≠ 0 →
      ∃ p2, init_vaults p bv pv lm b1 b2 b3 = .ok p2 ∧ p2.paused = false ∧
        ∀ bv2 pv2 lm2 c1 c2 c3,
          init_vaults p2 bv2 pv2 lm2 c1 c2 c3 = .error .AlreadyInitialized := by
  unfold create_pool at hc
  split at hc
  · exact absurd hc (by simp)
  · injection hc with h
    subst h
    refine ⟨rfl,
      ⟨fun _ _ _ _ _ _ => rfl, fun _ _ _ _ => rfl, fun _ _ _ _ _ _ => rfl,
       fun _ _ _ _ _ _ => rfl, fun _ _ _ _ _ _ => rfl, fun _ _ _ _ _ _ => rfl⟩,
      ?_⟩
    intro bv pv lm b1 b2 b3 hbv
    refine ⟨_, rfl, rfl, ?_⟩
    intro bv2 pv2 lm2 c1 c2 c3
    unfold init_vaults
    rw [if_pos]
    exact hbv

/-- C10 (witness): the handshake instantiated at
`create_pool 1 10 11 1000 255`, whose output is `createdPool`. -/
theorem pool_setup_pause_handshake_witness :
    createdPool.paused = true ∧ rejects_when_paused createdPool ∧
    ∀ bv pv lm b1 b2 b3, bv ≠ 0 →
      ∃ p2, init_vaults createdPool bv pv lm b1 b2 b3 = .ok p2 ∧ p2.paused = false ∧
        ∀ bv2 pv2 lm2 c1 c2 c3,
          init_vaults p2 bv2 pv2 lm2 c1 c2 c3 = .error .AlreadyInitialized :=
  pool_setup_pause_handshake 1 10 11 1000 255 createdPool rfl

/-- C6 (counterexample): a swap whose `min_amount_out` (0) is below the
maximum-slippage floor (95 for `amount_in = 100`) does not fail with
`SlippageTooHigh`: the dust-amount check fires first, so the error is
`AmountTooSmall`. -/
theorem slippage_floor_not_first_check :
    (0:Nat) < 100 * (10000 - MAX_SLIPPAGE_BPS) / 10000 ∧
    swap_bags_to_pump readyPool 1000000000 1000000000 0 100 0 0 =
      .error .AmountTooSmall ∧
    StableSwapError.AmountTooSmall ≠ StableSwapError.SlippageTooHigh :=
  ⟨by decide, rfl, by decide⟩

/-- C6 (amended): for a pool that is not paused and `amount_in` at least
`MIN_SWAP_AMOUNT`, every swap and migration call whose `min_amount_out` is
below the maximum-slippage floor `amount_in * (10000 - MAX_SLIPPAGE_BPS) /
10000` fails with `SlippageTooHigh` before any state mutation, regardless
of the remaining arguments (deadline, vault balances, pool balances). -/
theorem slippage_floor_rejects_low_min_out
    (pool : StablePool) (bv pv : Nat) (now : Int) (ai mo : Nat) (dl : Int)
    (hp : pool.paused = false) (hamt : MIN_SWAP_AMOUNT ≤ ai) (hai : ai < U64)
    (hmo : mo < ai * (10000 - MAX_SLIPPAGE_BPS) / 10000) :
    swap_bags_to_pump pool bv pv now ai mo dl = .error .SlippageTooHigh ∧
    swap_pump_to_bags pool bv pv now ai mo dl = .error .SlippageTooHigh ∧
    migrate_bags_to_pump pool bv pv now ai mo dl = .error .SlippageTooHigh ∧
    migrate_pump_to_bags pool bv pv now ai mo dl = .error .SlippageTooHigh := by
  have hfloor : ai * (10000 - MAX_SLIPPAGE_BPS) / 10000 % U64 =
      ai * (10000 - MAX_SLIPPAGE_BPS) / 10000 := by
    refine Nat.mod_eq_of_lt (lt_of_le_of_lt ?_ hai)
    calc ai * (10000 - MAX_SLIPPAGE_BPS) / 10000
        ≤ ai * 10000 / 10000 :=
          Nat.div_le_div_right (Nat.mul_le_mul_left ai (by omega))
      _ = ai := Nat.mul_div_cancel ai (by norm_num)
  refine ⟨?_, ?_, ?_, ?_⟩
  · simp only [swap_bags_to_pump, hp, Bool.false_eq_true, if_false]
    rw [if_neg (Nat.not_lt.mpr hamt), hfloor, if_pos hmo]
  · simp only [swap_pump_to_bags, hp, Bool.false_eq_true, if_false]
    rw [if_neg (Nat.not_lt.mpr hamt), hfloor, if_pos hmo]
  · simp only [migrate_bags_to_pump, hp, Bool.false_eq_true, if_false]
    rw [if_neg (Nat.not_lt.mpr hamt), hfloor, if_pos hmo]
  · simp only [migrate_pump_to_bags, hp, Bool.false_eq_true, if_false]
    rw [if_neg (Nat.not_lt.mpr hamt), hfloor, if_pos hmo]

/-- C6 (witness): the floor instantiated on `readyPool` with
`amount_in = 10^6` and `min_amount_out = 0 < 950000`. -/
theorem slippage_floor_rejects_low_min_out_witness :
    swap_bags_to_pump readyPool 0 0 0 1000000 0 0 = .error .SlippageTooHigh ∧
    swap_pump_to_bags readyPool 0 0 0 1000000 0 0 = .error .SlippageTooHigh ∧
    migrate_bags_to_pump readyPool 0 0 0 1000000 0 0 = .error .SlippageTooHigh ∧
    migrate_pump_to_bags readyPool 0 0 0 1000000 0 0 = .error .SlippageTooHigh :=
  slippage_floor_rejects_low_min_out readyPool 0 0 0 1000000 0 0 rfl
    (by decide) (by decide) (by decide)

/-- Evaluation rule for `claim_farming_rewards`, stated over opaque
records: a successful accrual update and pending computation with no
previously banked rewards pays out exactly the pending amount. -/
theorem claim_farming_rewards_eval (pos : UserFarmingPosition)
    (per per1 : FarmingPeriod) (now : Int) (amt : Nat)
    (h1 : update_farming_rewards per now = .ok per1)
    (h2 : calculate_pending_rewards pos per1 = .ok amt)
    (h3 : pos.pending_rewards = 0)
    (h4 : amt ≠ 0) (h5 : amt < U64)
    (hdebt : calculate_reward_debt pos.lp_staked per1.acc_reward_per_share = .ok amt)
    (h6 : per1.distributed_rewards = 0) :
    claim_farming_rewards pos per now =
      .ok ({ pos with pending_rewards := 0, reward_debt := amt },
           { per1 with distributed_rewards := amt }, amt) := by
  have hc : cadd64 0 amt = .ok amt := by
    unfold cadd64
    rw [Nat.zero_add, if_pos h5]
  unfold claim_farming_rewards
  rw [h1]
  simp only [ebind_ok]
  rw [h2]
  simp only [ebind_ok, h3]
  rw [hc]
  simp only [ebind_ok]
  rw [if_neg h4, hdebt]
  simp only [ebind_ok]
  rw [h6, hc]
  simp only [ebind_ok]

/-- Evaluation witness instantiated below; shared projection facts for the
single-staker scenario. -/
theorem singleStaker_debt_eval (s e : Int) :
    calculate_reward_debt singleStakerPos.lp_staked
      (singleStakerPeriodAfter s e).acc_reward_per_share = .ok 10000 := by
  rw [show singleStakerPos.lp_staked = 100 from rfl,
      show (singleStakerPeriodAfter s e).acc_reward_per_share =
        100000000000000 from rfl]
  rfl

/-- C8: with a single staker of 100 LP in a period with
`reward_per_second = 10` and nobody else staked, claiming 1000 seconds
after the last update (still inside the period window) pays out exactly
`100 * ((10 * 1000 * REWARD_PRECISION / 100) / REWARD_PRECISION) = 10000`
reward units, with no rounding loss. -/
theorem farming_single_staker_exact_payout (s e : Int) (h : s + 1000 ≤ e) :
    claim_farming_rewards singleStakerPos (singleStakerPeriod s e) (s + 1000) =
      .ok (singleStakerPosPaid, singleStakerPeriodPaid s e, 10000) := by
  have helapsed : (s + 1000 - s).toNat = 1000 := by omega
  have hupd : update_farming_rewards (singleStakerPeriod s e) (s + 1000) =
      .ok (singleStakerPeriodAfter s e) := by
    unfold update_farming_rewards
    simp only [show (singleStakerPeriod s e).start_time = s from rfl,
      show (singleStakerPeriod s e).end_time = e from rfl,
      show (singleStakerPeriod s e).last_update_time = s from rfl,
      show (singleStakerPeriod s e).total_staked = 100 from rfl,
      show (singleStakerPeriod s e).reward_per_second = 10 from rfl,
      show (singleStakerPeriod s e).acc_reward_per_share = 0 from rfl,
      min_eq_left h, helapsed]
    rw [if_neg (by omega), if_neg (by decide), if_neg (by omega)]
    simp only [show toRes (cmul128 10 1000) =
        (.ok 10000 : Except StableSwapError Nat) from rfl, ebind_ok,
      show toRes ((cmul128 10000 REWARD_PRECISION).bind fun v => cdiv v 100) =
        (.ok 100000000000000 : Except StableSwapError Nat) from rfl,
      show toRes (cadd128 0 100000000000000) =
        (.ok 100000000000000 : Except StableSwapError Nat) from rfl]
    rfl
  have hpend : calculate_pending_rewards singleStakerPos
      (singleStakerPeriodAfter s e) = .ok 10000 := by
    unfold calculate_pending_rewards
    simp only [show singleStakerPos.lp_staked = 100 from rfl,
      show (singleStakerPeriodAfter s e).acc_reward_per_share =
        100000000000000 from rfl,
      show singleStakerPos.reward_debt = 0 from rfl]
    rw [if_neg (by decide : ¬(100 = 0))]
    simp only [show toRes ((cmul128 100 100000000000000).bind fun v =>
        cdiv v REWARD_PRECISION) =
        (.ok 10000 : Except StableSwapError Nat) from rfl, ebind_ok]
    rfl
  exact claim_farming_rewards_eval singleStakerPos (singleStakerPeriod s e)
    (singleStakerPeriodAfter s e) (s + 1000) 10000 hupd hpend rfl
    (by decide) (by decide) (singleStaker_debt_eval s e) rfl

/-- C8 (witness): the exact payout at `s = 0`, `e = 1000`. -/
theorem farming_single_staker_exact_payout_witness :
    claim_farming_rewards singleStakerPos (singleStakerPeriod 0 1000) (0 + 1000) =
      .ok (singleStakerPosPaid, singleStakerPeriodPaid 0 1000, 10000) :=
  farming_single_staker_exact_payout 0 1000 (by decide)

/-- Computation rule for `Option.bind` on `some`. -/
theorem someBind {A B : Type} (v : A) (f : A → Option B) :
    (some v).bind f = f v := rfl

/-- One unfolding of the `calculate_d` Newton loop. -/
theorem d_loop_succ (b p ann s fuel d : Nat) :
    d_loop b p ann s (fuel + 1) d =
      if b = 0 ∨ p = 0 then .ok 0
      else
        ebind (d_step b p ann s d) fun d2 =>
          if d2 > d then
            if d2 - d ≤ CONVERGENCE_THRESHOLD then .ok d2
            else d_loop b p ann s fuel d2
          else
            if d - d2 ≤ CONVERGENCE_THRESHOLD then .ok d2
            else d_loop b p ann s fuel d2 := rfl

/-- One unfolding of the `calculate_y` Newton loop. -/
theorem y_loop_succ (c bc d fuel y : Nat) :
    y_loop c bc d (fuel + 1) y =
      ebind (y_step c bc d y) fun y2 =>
        if y2 > y then
          if y2 - y ≤ CONVERGENCE_THRESHOLD then .ok y2
          else y_loop c bc d fuel y2
        else
          if y - y2 ≤ CONVERGENCE_THRESHOLD then .ok y2
          else y_loop c bc d fuel y2 := rfl

/-- C5 (counterexample): at the valid `u64` balance `x = 2^63` (with
`A = 1000`) the first Newton step of `calculate_d(x, x, A)` overflows
`u128` computing `D * D`, so the call fails with `MathOverflow` instead of
returning a value near `2x`. -/
theorem calculate_d_overflow_at_large_equal_balances :
    calculate_d (2 ^ 63) (2 ^ 63) 1000 = .error .MathOverflow := by rfl

/-- The Newton step of `calculate_d` at equal balances `x` is exact: it
maps the seed `x + x` to itself. -/
theorem d_step_equal_balances (x b : Nat) (hx : 0 < x)
    (hfit : 4 * x ^ 2 * (2 * (b + 1) + 2) < U128) :
    d_step x x ((b + 1) * 2) (x + x) (x + x) = .ok (x + x) := by
  have key : ∀ c : Nat, c ≤ 2 * b + 4 → c * (x + x) < U128 := by
    intro c hc
    refine lt_of_le_of_lt ?_ hfit
    calc c * (x + x) ≤ (2 * b + 4) * (x + x) := Nat.mul_le_mul_right _ hc
      _ ≤ (2 * b + 4) * (x + x) * x := Nat.le_mul_of_pos_right _ hx
      _ = 2 * (x ^ 2 * (2 * b + 4)) := by ring
      _ ≤ 4 * (x ^ 2 * (2 * b + 4)) := Nat.mul_le_mul_right _ (by omega)
      _ = 4 * x ^ 2 * (2 * (b + 1) + 2) := by ring
  have hsq : (x + x) * (x + x) = x * 2 * (x + x) := by ring
  have hq1 : cmul128 (x + x) (x + x) = some ((x + x) * (x + x)) := by
    refine if_pos (lt_of_le_of_lt ?_ hfit)
    calc (x + x) * (x + x) = 4 * x ^ 2 * 1 := by ring
      _ ≤ 4 * x ^ 2 * (2 * (b + 1) + 2) := Nat.mul_le_mul_left _ (by omega)
  have hq2 : cmul128 x 2 = some (x * 2) := by
    refine if_pos ?_
    rw [show x * 2 = 1 * (x + x) from by ring]
    exact key 1 (by omega)
  have hdiv1 : cdiv ((x + x) * (x + x)) (x * 2) = some (x + x) := by
    unfold cdiv
    rw [if_neg (by omega : ¬(x * 2 = 0)), hsq,
      Nat.mul_div_cancel_left (x + x) (by omega : 0 < x * 2)]
  have hq3 : cmul128 ((b + 1) * 2) (x + x) = some ((b + 1) * 2 * (x + x)) :=
    if_pos (key ((b + 1) * 2) (by omega))
  have hq4 : cmul128 (x + x) 2 = some ((x + x) * 2) := by
    refine if_pos ?_
    rw [show (x + x) * 2 = 2 * (x + x) from by ring]
    exact key 2 (by omega)
  have hq5 : cadd128 ((b + 1) * 2 * (x + x)) ((x + x) * 2) =
      some ((b + 1) * 2 * (x + x) + (x + x) * 2) := by
    refine if_pos ?_
    rw [show (b + 1) * 2 * (x + x) + (x + x) * 2 =
      (2 * b + 4) * (x + x) from by ring]
    exact key (2 * b + 4) (by omega)
  have hq6 : cmul128 ((b + 1) * 2 * (x + x) + (x + x) * 2) (x + x) =
      some (((b + 1) * 2 * (x + x) + (x + x) * 2) * (x + x)) := by
    refine if_pos (lt_of_le_of_lt ?_ hfit)
    exact le_of_eq (by ring)
  have hsub : csub ((b + 1) * 2) 1 = some (2 * b + 1) := by
    unfold csub
    rw [if_pos (by omega : 1 ≤ (b + 1) * 2)]
    congr 1
    omega
  have hq7 : cmul128 (2 * b + 1) (x + x) = some ((2 * b + 1) * (x + x)) :=
    if_pos (key (2 * b + 1) (by omega))
  have hq8 : cmul128 (x + x) (2 + 1) = some ((x + x) * (2 + 1)) := by
    refine if_pos ?_
    rw [show (x + x) * (2 + 1) = 3 * (x + x) from by ring]
    exact key 3 (by omega)
  have hq9 : cadd128 ((2 * b + 1) * (x + x)) ((x + x) * (2 + 1)) =
      some ((2 * b + 1) * (x + x) + (x + x) * (2 + 1)) := by
    refine if_pos ?_
    rw [show (2 * b + 1) * (x + x) + (x + x) * (2 + 1) =
      (2 * b + 4) * (x + x) from by ring]
    exact key (2 * b + 4) (by omega)
  have hden0 : ¬((2 * b + 1) * (x + x) + (x + x) * (2 + 1) = 0) := by
    have : 0 < (x + x) * (2 + 1) := by positivity
    omega
  have hfin : cdiv (((b + 1) * 2 * (x + x) + (x + x) * 2) * (x + x))
      ((2 * b + 1) * (x + x) + (x + x) * (2 + 1)) = some (x + x) := by
    unfold cdiv
    rw [if_neg hden0]
    congr 1
    rw [show ((b + 1) * 2 * (x + x) + (x + x) * 2) * (x + x) =
      ((2 * b + 1) * (x + x) + (x + x) * (2 + 1)) * (x + x) from by ring]
    exact Nat.mul_div_cancel_left (x + x)
      (by positivity : 0 < (2 * b + 1) * (x + x) + (x + x) * (2 + 1))
  unfold d_step
  simp only [N_COINS, hq1, someBind, hq2, hdiv1, toRes, ebind_ok, hq3, hq4,
    hq5, hq6, hsub, hq7, hq8, hq9]
  rw [if_neg hden0]
  simp only [hfin, toRes, ebind_ok]

/-- C5 (amended): `calculate_d(x, x, A)` returns exactly `2x` (well within
the convergence threshold) for every `0 < x` and
`MIN_AMPLIFICATION ≤ A ≤ MAX_AMPLIFICATION` such that the largest Newton
intermediate `4x²(2A+2)` fits in `u128`; the original claim's unrestricted
"for every balance `x > 0`" fails at `x ≥ 2^63` by `MathOverflow`. -/
theorem calculate_d_equal_balances_exact (x a : Nat)
    (hx : 0 < x) (ha1 : MIN_AMPLIFICATION ≤ a) (ha2 : a ≤ MAX_AMPLIFICATION)
    (hfit : 4 * x ^ 2 * (2 * a + 2) < U128) :
    calculate_d x x a = .ok (2 * x) := by
  have ha1n : 1 ≤ a := ha1
  obtain ⟨b, rfl⟩ : ∃ b, a = b + 1 := ⟨a - 1, by omega⟩
  unfold calculate_d
  rw [if_neg (by omega : ¬(x + x = 0))]
  rw [show MAX_ITERATIONS = 254 + 1 from rfl, show N_COINS = 2 from rfl,
    d_loop_succ]
  rw [if_neg (by omega : ¬(x = 0 ∨ x = 0))]
  rw [d_step_equal_balances x b hx hfit]
  simp only [ebind_ok]
  rw [if_neg (by omega : ¬(x + x > x + x)),
    if_pos (by simp [CONVERGENCE_THRESHOLD] :
      x + x - (x + x) ≤ CONVERGENCE_THRESHOLD)]
  rw [two_mul]

/-- C5 (witness): at `x = 10^6`, `A = 1000` the call returns exactly
`2 * 10^6`. -/
theorem calculate_d_equal_balances_exact_witness :
    calculate_d 1000000 1000000 1000 = .ok (2 * 1000000) :=
  calculate_d_equal_balances_exact 1000000 1000 (by decide) (by decide)
    (by decide) (by decide)

/-- Inversion for `cadd64`. -/
theorem cadd64_ok_inv {a b v : Nat} (h : cadd64 a b = .ok v) :
    v = a + b ∧ a + b < U64 := by
  unfold cadd64 at h
  split at h
  · rename_i hlt
    injection h with h
    exact ⟨h.symm, hlt⟩
  · exact absurd h (by simp)

/-- Inversion for `csub64`. -/
theorem csub64_ok_inv {a b v : Nat} (h : csub64 a b = .ok v) :
    v = a - b ∧ b ≤ a := by
  unfold csub64 at h
  split at h
  · rename_i hle
    injection h with h
    exact ⟨h.symm, hle⟩
  · exact absurd h (by simp)

/-- Every successful `calculate_swap_output` fits in `u64` (the source
ends with an `as u64` cast). -/
theorem calculate_swap_output_lt {b p ai amp : Nat} {dir : Bool} {g : Nat}
    (h : calculate_swap_output b p ai amp dir = .ok g) : g < U64 := by
  unfold calculate_swap_output at h
  obtain ⟨d, hd, h⟩ := ebind_ok_inv h
  simp only [] at h
  obtain ⟨ynew, hy, h⟩ := ebind_ok_inv h
  obtain ⟨dy, hdy, h⟩ := ebind_ok_inv h
  injection h with h
  rw [← h]
  exact Nat.mod_lt dy (by simp [U64])

/-- C7: a successful invariant-priced swap adds exactly `amount_in` to the
tracked input-side balance, removes exactly the gross (pre-fee) output `g`
from the tracked output-side balance (the fee stays in tracked balance),
adds `fee * admin_fee_percent / 100` (with `fee = g * swap_fee_bps /
10000`) to the output-side admin-fee accumulator, and adds `amount_in` to
the input-side total-volume counter; no other pool field changes. -/
theorem swap_balance_and_fee_frame (pool : StablePool) (bv pv : Nat)
    (now : Int) (ai mo : Nat) (dl : Int)
    (hbps : pool.swap_fee_bps ≤ 10000) (hadm : pool.admin_fee_percent ≤ 100) :
    (∀ pool2 out, swap_bags_to_pump pool bv pv now ai mo dl = .ok (pool2, out) →
      ∃ g, calculate_swap_output pool.bags_balance pool.pump_balance ai
          (get_current_amplification pool now) true = .ok g ∧
        g ≤ pool.pump_balance ∧
        out = g - g * pool.swap_fee_bps / 10000 ∧
        pool2 = { pool with
          bags_balance := pool.bags_balance + ai
          pump_balance := pool.pump_balance - g
          admin_fees_pump := pool.admin_fees_pump +
            g * pool.swap_fee_bps / 10000 * pool.admin_fee_percent / 100
          total_volume_bags := pool.total_volume_bags + ai }) ∧
    (∀ pool2 out, swap_pump_to_bags pool bv pv now ai mo dl = .ok (pool2, out) →
      ∃ g, calculate_swap_output pool.bags_balance pool.pump_balance ai
          (get_current_amplification pool now) false = .ok g ∧
        g ≤ pool.bags_balance ∧
        out = g - g * pool.swap_fee_bps / 10000 ∧
        pool2 = { pool with
          pump_balance := pool.pump_balance + ai
          bags_balance := pool.bags_balance - g
          admin_fees_bags := pool.admin_fees_bags +
            g * pool.swap_fee_bps / 10000 * pool.admin_fee_percent / 100
          total_volume_pump := pool.total_volume_pump + ai }) := by
  have hfeemod : ∀ g : Nat, g < U64 →
      g * pool.swap_fee_bps / 10000 * pool.admin_fee_percent % U128 / 100 % U64 =
        g * pool.swap_fee_bps / 10000 * pool.admin_fee_percent / 100 := by
    intro g hgu
    have hfee_le : g * pool.swap_fee_bps / 10000 ≤ g := by
      calc g * pool.swap_fee_bps / 10000 ≤ g * 10000 / 10000 :=
            Nat.div_le_div_right (Nat.mul_le_mul_left g hbps)
        _ = g := Nat.mul_div_cancel g (by norm_num)
    have hmul_lt : g * pool.swap_fee_bps / 10000 * pool.admin_fee_percent < U128 := by
      calc g * pool.swap_fee_bps / 10000 * pool.admin_fee_percent
          ≤ g * 100 := Nat.mul_le_mul hfee_le hadm
        _ < U64 * 100 := by
            have : 0 < (100:Nat) := by norm_num
            exact (Nat.mul_lt_mul_right this).mpr hgu
        _ < U128 := by norm_num [U64, U128]
    rw [Nat.mod_eq_of_lt hmul_lt]
    refine Nat.mod_eq_of_lt (lt_of_le_of_lt ?_ hgu)
    calc g * pool.swap_fee_bps / 10000 * pool.admin_fee_percent / 100
        ≤ g * 100 / 100 := Nat.div_le_div_right (Nat.mul_le_mul hfee_le hadm)
      _ = g := Nat.mul_div_cancel g (by norm_num)
  have houtmod : ∀ g : Nat, g < U64 →
      (g + U64 - g * pool.swap_fee_bps / 10000 % U64) % U64 =
        g - g * pool.swap_fee_bps / 10000 := by
    intro g hgu
    have hfee_le : g * pool.swap_fee_bps / 10000 ≤ g := by
      calc g * pool.swap_fee_bps / 10000 ≤ g * 10000 / 10000 :=
            Nat.div_le_div_right (Nat.mul_le_mul_left g hbps)
        _ = g := Nat.mul_div_cancel g (by norm_num)
    have h64 : (0:Nat) < U64 := by norm_num [U64]
    rw [Nat.mod_eq_of_lt (lt_of_le_of_lt hfee_le hgu)]
    rw [show g + U64 - g * pool.swap_fee_bps / 10000 =
      U64 + (g - g * pool.swap_fee_bps / 10000) from by omega]
    rw [Nat.add_mod_left]
    exact Nat.mod_eq_of_lt (by omega)
  constructor
  · intro pool2 out hok
    simp only [swap_bags_to_pump] at hok
    split at hok
    · exact Except.noConfusion hok
    split at hok
    · exact Except.noConfusion hok
    split at hok
    · exact Except.noConfusion hok
    split at hok
    · exact Except.noConfusion hok
    split at hok
    · exact Except.noConfusion hok
    split at hok
    · exact Except.noConfusion hok
    obtain ⟨g, hg, hok⟩ := ebind_ok_inv hok
    try simp only [] at hok
    have hgu : g < U64 := calculate_swap_output_lt hg
    split at hok
    · exact Except.noConfusion hok
    split at hok
    · exact Except.noConfusion hok
    obtain ⟨nb, hnb, hok⟩ := ebind_ok_inv hok
    try simp only [] at hok
    obtain ⟨np, hnp, hok⟩ := ebind_ok_inv hok
    try simp only [] at hok
    obtain ⟨nfp, hnfp, hok⟩ := ebind_ok_inv hok
    try simp only [] at hok
    obtain ⟨nvb, hnvb, hok⟩ := ebind_ok_inv hok
    try simp only [] at hok
    injection hok with hok
    injection hok with h1 h2
    obtain ⟨hnb1, -⟩ := cadd64_ok_inv hnb
    obtain ⟨hnp1, hnp2⟩ := csub64_ok_inv hnp
    obtain ⟨hnfp1, -⟩ := cadd64_ok_inv hnfp
    obtain ⟨hnvb1, -⟩ := cadd64_ok_inv hnvb
    refine ⟨g, hg, hnp2, ?_, ?_⟩
    · rw [← h2]
      exact houtmod g hgu
    · rw [← h1, hnb1, hnp1, hnfp1, hnvb1, hfeemod g hgu]
  · intro pool2 out hok
    simp only [swap_pump_to_bags] at hok
    split at hok
    · exact Except.noConfusion hok
    split at hok
    · exact Except.noConfusion hok
    split at hok
    · exact Except.noConfusion hok
    split at hok
    · exact Except.noConfusion hok
    split at hok
    · exact Except.noConfusion hok
    split at hok
    · exact Except.noConfusion hok
    obtain ⟨g, hg, hok⟩ := ebind_ok_inv hok
    try simp only [] at hok
    have hgu : g < U64 := calculate_swap_output_lt hg
    split at hok
    · exact Except.noConfusion hok
    split at hok
    · exact Except.noConfusion hok
    obtain ⟨np, hnp, hok⟩ := ebind_ok_inv hok
    try simp only [] at hok
    obtain ⟨nb, hnb, hok⟩ := ebind_ok_inv hok
    try simp only [] at hok
    obtain ⟨nfb, hnfb, hok⟩ := ebind_ok_inv hok
    try simp only [] at hok
    obtain ⟨nvp, hnvp, hok⟩ := ebind_ok_inv hok
    try simp only [] at hok
    injection hok with hok
    injection hok with h1 h2
    obtain ⟨hnp1, -⟩ := cadd64_ok_inv hnp
    obtain ⟨hnb1, hnb2⟩ := csub64_ok_inv hnb
    obtain ⟨hnfb1, -⟩ := cadd64_ok_inv hnfb
    obtain ⟨hnvp1, -⟩ := cadd64_ok_inv hnvp
    refine ⟨g, hg, hnb2, ?_, ?_⟩
    · rw [← h2]
      exact houtmod g hgu
    · rw [← h1, hnp1, hnb1, hnfb1, hnvp1, hfeemod g hgu]

/-- C7 (witness): the frame instantiated at a concrete successful swap of
`10^6` BAGS on `readyPool`, where the gross output is exactly `10^6`. -/
theorem swap_balance_and_fee_frame_witness :
    ∃ g, calculate_swap_output readyPool.bags_balance readyPool.pump_balance
        1000000 (get_current_amplification readyPool 0) true = .ok g ∧
      g ≤ readyPool.pump_balance ∧
      999600 = g - g * readyPool.swap_fee_bps / 10000 ∧
      readyPoolAfterSwap = { readyPool with
        bags_balance := readyPool.bags_balance + 1000000
        pump_balance := readyPool.pump_balance - g
        admin_fees_pump := readyPool.admin_fees_pump +
          g * readyPool.swap_fee_bps / 10000 * readyPool.admin_fee_percent / 100
        total_volume_bags := readyPool.total_volume_bags + 1000000 } :=
  (swap_balance_and_fee_frame readyPool 1000000000 1000000000 0 1000000
    950000 0 (by decide) (by decide)).1 readyPoolAfterSwap 999600 (by rfl)

/-- Inversion for the checked multiply-then-divide u128 chain. -/
theorem muldiv_ok_inv {a b c r : Nat}
    (h : toRes ((cmul128 a b).bind fun v => cdiv v c) = .ok r) :
    r = a * b / c := by
  unfold cmul128 at h
  split at h
  · rw [someBind] at h
    unfold cdiv at h
    split at h
    · exact absurd h (by simp [toRes])
    · unfold toRes at h
      injection h with h
      exact h.symm
  · exact absurd h (by simp [toRes])

/-- C3 (amended): every successful non-first two-sided `add_liquidity`
call grows
the invariant strictly (`D1 > D0` is checked, so `D` never decreases
across deposits), and mints exactly `(D1 - D0) * lp_supply / D0` LP,
where `D0`/`D1` are the invariant at the pre-call and post-call tracked
balances under the current amplification (the hypothesis `hfit` says the
quotient is representable in `u64`, so the source's final cast does not
truncate). -/
theorem add_liquidity_mints_by_invariant_growth
    (pool : StablePool) (bv pv : Nat) (now : Int) (ba pa mlp : Nat)
    (pool2 : StablePool) (lp d0 d1 : Nat)
    (hsup : pool.lp_supply ≠ 0)
    (hok : add_liquidity pool bv pv now ba pa mlp = .ok (pool2, lp))
    (hd0 : calculate_d pool.bags_balance pool.pump_balance
      (get_current_amplification pool now) = .ok d0)
    (hd1 : calculate_d pool2.bags_balance pool2.pump_balance
      (get_current_amplification pool now) = .ok d1)
    (hfit : (d1 - d0) * pool.lp_supply / d0 < U64) :
    d0 < d1 ∧ lp = (d1 - d0) * pool.lp_supply / d0 := by
  simp only [add_liquidity] at hok
  split at hok
  · exact Except.noConfusion hok
  split at hok
  · exact Except.noConfusion hok
  split at hok
  · exact Except.noConfusion hok
  split at hok
  · exact Except.noConfusion hok
  split at hok
  · exact Except.noConfusion hok
  obtain ⟨d0x, hd0x, hok⟩ := ebind_ok_inv hok
  try simp only [] at hok
  obtain ⟨nb, hnb, hok⟩ := ebind_ok_inv hok
  try simp only [] at hok
  obtain ⟨np, hnp, hok⟩ := ebind_ok_inv hok
  try simp only [] at hok
  obtain ⟨d1x, hd1x, hok⟩ := ebind_ok_inv hok
  try simp only [] at hok
  split at hok
  · exact Except.noConfusion hok
  rename_i hgrow
  obtain ⟨lp128, hlp, hok⟩ := ebind_ok_inv hok
  try simp only [] at hok
  obtain ⟨ib, hib, hok⟩ := ebind_ok_inv hok
  try simp only [] at hok
  obtain ⟨ip, hip, hok⟩ := ebind_ok_inv hok
  try simp only [] at hok
  simp only [add_liquidity_finish] at hok
  split at hok
  · exact Except.noConfusion hok
  simp only [Bool.false_eq_true, if_false] at hok
  obtain ⟨ns, hns, hok⟩ := ebind_ok_inv hok
  try simp only [] at hok
  obtain ⟨nfb, hnfb, hok⟩ := ebind_ok_inv hok
  try simp only [] at hok
  obtain ⟨nfp, hnfp, hok⟩ := ebind_ok_inv hok
  try simp only [] at hok
  injection hok with hok
  injection hok with h1 h2
  rw [hd0x] at hd0
  injection hd0 with hd0
  subst hd0
  rw [← h1] at hd1
  simp only [] at hd1
  rw [hd1x] at hd1
  injection hd1 with hd1
  subst hd1
  push_neg at hgrow
  refine ⟨hgrow, ?_⟩
  rw [← h2, muldiv_ok_inv hlp, Nat.mod_eq_of_lt hfit]

/-- C3 (witness): a balanced second deposit of `10^9 + 10^9` on
`readyPool` has `D0 = 2·10^9`, `D1 = 4·10^9` and mints exactly
`(D1 - D0) * lp_supply / D0 = 2·10^9` LP. -/
theorem add_liquidity_mints_by_invariant_growth_witness :
    (2000000000:Nat) < 4000000000 ∧
    (2000000000:Nat) =
      (4000000000 - 2000000000) * readyPool.lp_supply / 2000000000 :=
  add_liquidity_mints_by_invariant_growth readyPool 1000000000 1000000000 0
    1000000000 1000000000 0 readyPoolAfterDeposit 2000000000 2000000000
    4000000000 (by decide) (by rfl) (by rfl) (by rfl) (by decide)

/-- Unfolding of `d_stepN` at a successor index. -/
theorem d_stepN_succ (b p ann s k d : Nat) :
    d_stepN b p ann s (k + 1) d =
      ebind (d_step b p ann s d) (d_stepN b p ann s k) := rfl

/-- Shifting `d_stepN` across a successful first step. -/
theorem d_stepN_shift (b p ann s d0 d2 : Nat)
    (hstep : d_step b p ann s d0 = .ok d2) (k : Nat) :
    d_stepN b p ann s (k + 1) d0 = d_stepN b p ann s k d2 := by
  rw [d_stepN_succ, hstep, ebind_ok]

/-- Shifting `d_conv` across a successful first step. -/
theorem d_conv_shift (b p ann s d0 d2 : Nat)
    (hstep : d_step b p ann s d0 = .ok d2) (j : Nat) :
    d_conv b p ann s d0 (j + 1) = d_conv b p ann s d2 j := by
  unfold d_conv
  rw [d_stepN_succ, hstep, ebind_ok]

/-- `d_conv` at index 0 is true exactly on a converged first step. -/
theorem d_conv_zero_true (b p ann s d0 d2 : Nat)
    (hstep : d_step b p ann s d0 = .ok d2)
    (hle : Nat.dist d2 d0 ≤ CONVERGENCE_THRESHOLD) :
    d_conv b p ann s d0 0 = true := by
  simp [d_conv, d_stepN, hstep, hle]

/-- `d_conv` at index 0 is false on an unconverged first step. -/
theorem d_conv_zero_false (b p ann s d0 d2 : Nat)
    (hstep : d_step b p ann s d0 = .ok d2)
    (hgt : ¬ Nat.dist d2 d0 ≤ CONVERGENCE_THRESHOLD) :
    d_conv b p ann s d0 0 = false := by
  simp [d_conv, d_stepN, hstep, hgt]

/-- Soundness of the `calculate_d` Newton loop: a success is the
`(k+1)`-st iterate for the first `k < fuel` at which two successive
iterates are within the convergence threshold. -/
theorem d_loop_ok_sound (b p ann s : Nat) (hb : 0 < b) (hp : 0 < p) :
    ∀ fuel d0 y, d_loop b p ann s fuel d0 = .ok y →
      ∃ k, k < fuel ∧ d_stepN b p ann s (k + 1) d0 = .ok y ∧
        d_conv b p ann s d0 k = true ∧
        ∀ j, j < k → d_conv b p ann s d0 j = false := by
  intro fuel
  induction fuel with
  | zero =>
    intro d0 y h
    exact absurd h (by simp [d_loop])
  | succ fuel ih =>
    intro d0 y h
    rw [d_loop_succ, if_neg (by omega : ¬(b = 0 ∨ p = 0))] at h
    cases hstep : d_step b p ann s d0 with
    | error e =>
      rw [hstep, ebind_error] at h
      exact Except.noConfusion h
    | ok d2 =>
      rw [hstep, ebind_ok] at h
      split at h
      · rename_i hgt
        split at h
        · rename_i hcv
          injection h with h
          subst h
          refine ⟨0, by omega, ?_, ?_, fun j hj => absurd hj (Nat.not_lt_zero j)⟩
          · rw [d_stepN_shift b p ann s d0 d2 hstep 0]
            rfl
          · exact d_conv_zero_true b p ann s d0 d2 hstep
              (by simp [Nat.dist]; omega)
        · rename_i hcv
          obtain ⟨k, hk, hsN, hcv2, hmin⟩ := ih d2 y h
          refine ⟨k + 1, by omega, ?_, ?_, ?_⟩
          · rw [d_stepN_shift b p ann s d0 d2 hstep (k + 1)]
            exact hsN
          · rw [d_conv_shift b p ann s d0 d2 hstep k]
            exact hcv2
          · intro j hj
            cases j with
            | zero =>
              exact d_conv_zero_false b p ann s d0 d2 hstep
                (by simp only [Nat.dist, CONVERGENCE_THRESHOLD] at *; omega)
            | succ i =>
              rw [d_conv_shift b p ann s d0 d2 hstep i]
              exact hmin i (by omega)
      · rename_i hgt
        split at h
        · rename_i hcv
          injection h with h
          subst h
          refine ⟨0, by omega, ?_, ?_, fun j hj => absurd hj (Nat.not_lt_zero j)⟩
          · rw [d_stepN_shift b p ann s d0 d2 hstep 0]
            rfl
          · exact d_conv_zero_true b p ann s d0 d2 hstep
              (by simp [Nat.dist]; omega)
        · rename_i hcv
          obtain ⟨k, hk, hsN, hcv2, hmin⟩ := ih d2 y h
          refine ⟨k + 1, by omega, ?_, ?_, ?_⟩
          · rw [d_stepN_shift b p ann s d0 d2 hstep (k + 1)]
            exact hsN
          · rw [d_conv_shift b p ann s d0 d2 hstep k]
            exact hcv2
          · intro j hj
            cases j with
            | zero =>
              exact d_conv_zero_false b p ann s d0 d2 hstep
                (by simp only [Nat.dist, CONVERGENCE_THRESHOLD] at *; omega)
            | succ i =>
              rw [d_conv_shift b p ann s d0 d2 hstep i]
              exact hmin i (by omega)

/-- Exhaustion of the `calculate_d` Newton loop: if every step in range
succeeds but none converges, the loop returns `ConvergenceFailed`. -/
theorem d_loop_exhaust (b p ann s : Nat) (hb : 0 < b) (hp : 0 < p) :
    ∀ fuel d0,
      (∀ k, k < fuel → ∃ dk, d_stepN b p ann s (k + 1) d0 = .ok dk) →
      (∀ k, k < fuel → d_conv b p ann s d0 k = false) →
      d_loop b p ann s fuel d0 = .error .ConvergenceFailed := by
  intro fuel
  induction fuel with
  | zero =>
    intro d0 _ _
    rfl
  | succ fuel ih =>
    intro d0 hsteps hconvs
    obtain ⟨d1, h1⟩ := hsteps 0 (by omega)
    have hstep : d_step b p ann s d0 = .ok d1 := by
      cases hd : d_step b p ann s d0 with
      | error e =>
        rw [d_stepN_succ, hd, ebind_error] at h1
        exact Except.noConfusion h1
      | ok v =>
        rw [d_stepN_shift b p ann s d0 v hd 0] at h1
        injection h1 with h1
        rw [h1]
    have hfar : ¬ Nat.dist d1 d0 ≤ CONVERGENCE_THRESHOLD := by
      intro hle
      have := hconvs 0 (by omega)
      rw [d_conv_zero_true b p ann s d0 d1 hstep hle] at this
      exact Bool.noConfusion this
    rw [d_loop_succ, if_neg (by omega : ¬(b = 0 ∨ p = 0)), hstep, ebind_ok]
    have hrec := ih d1
      (fun k hk => by
        rw [← d_stepN_shift b p ann s d0 d1 hstep (k + 1)]
        exact hsteps (k + 1) (by omega))
      (fun k hk => by
        rw [← d_conv_shift b p ann s d0 d1 hstep k]
        exact hconvs (k + 1) (by omega))
    split
    · rename_i hgt
      rw [if_neg (by simp only [Nat.dist, CONVERGENCE_THRESHOLD] at *; omega)]
      exact hrec
    · rename_i hgt
      rw [if_neg (by simp only [Nat.dist, CONVERGENCE_THRESHOLD] at *; omega)]
      exact hrec

/-- Unfolding of `y_stepN` at a successor index. -/
theorem y_stepN_succ (c bc d k y : Nat) :
    y_stepN c bc d (k + 1) y =
      ebind (y_step c bc d y) (y_stepN c bc d k) := rfl

/-- Shifting `y_stepN` across a successful first step. -/
theorem y_stepN_shift (c bc d y0 y2 : Nat)
    (hstep : y_step c bc d y0 = .ok y2) (k : Nat) :
    y_stepN c bc d (k + 1) y0 = y_stepN c bc d k y2 := by
  rw [y_stepN_succ, hstep, ebind_ok]

/-- Shifting `y_conv` across a successful first step. -/
theorem y_conv_shift (c bc d y0 y2 : Nat)
    (hstep : y_step c bc d y0 = .ok y2) (j : Nat) :
    y_conv c bc d y0 (j + 1) = y_conv c bc d y2 j := by
  unfold y_conv
  rw [y_stepN_succ, hstep, ebind_ok]

/-- `y_conv` at index 0 is true on a converged first step. -/
theorem y_conv_zero_true (c bc d y0 y2 : Nat)
    (hstep : y_step c bc d y0 = .ok y2)
    (hle : Nat.dist y2 y0 ≤ CONVERGENCE_THRESHOLD) :
    y_conv c bc d y0 0 = true := by
  simp [y_conv, y_stepN, hstep, hle]

/-- `y_conv` at index 0 is false on an unconverged first step. -/
theorem y_conv_zero_false (c bc d y0 y2 : Nat)
    (hstep : y_step c bc d y0 = .ok y2)
    (hgt : ¬ Nat.dist y2 y0 ≤ CONVERGENCE_THRESHOLD) :
    y_conv c bc d y0 0 = false := by
  simp [y_conv, y_stepN, hstep, hgt]

/-- Soundness of the `calculate_y` Newton loop: a success is the
`(k+1)`-st iterate for the first `k < fuel` at which two successive
iterates are within the convergence threshold. -/
theorem y_loop_ok_sound (c bc d : Nat) :
    ∀ fuel y0 y, y_loop c bc d fuel y0 = .ok y →
      ∃ k, k < fuel ∧ y_stepN c bc d (k + 1) y0 = .ok y ∧
        y_conv c bc d y0 k = true ∧
        ∀ j, j < k → y_conv c bc d y0 j = false := by
  intro fuel
  induction fuel with
  | zero =>
    intro y0 y h
    exact absurd h (by simp [y_loop])
  | succ fuel ih =>
    intro y0 y h
    rw [y_loop_succ] at h
    cases hstep : y_step c bc d y0 with
    | error e =>
      rw [hstep, ebind_error] at h
      exact Except.noConfusion h
    | ok y2 =>
      rw [hstep, ebind_ok] at h
      split at h
      · rename_i hgt
        split at h
        · rename_i hcv
          injection h with h
          subst h
          refine ⟨0, by omega, ?_, ?_, fun j hj => absurd hj (Nat.not_lt_zero j)⟩
          · rw [y_stepN_shift c bc d y0 y2 hstep 0]
            rfl
          · exact y_conv_zero_true c bc d y0 y2 hstep
              (by simp [Nat.dist]; omega)
        · rename_i hcv
          obtain ⟨k, hk, hsN, hcv2, hmin⟩ := ih y2 y h
          refine ⟨k + 1, by omega, ?_, ?_, ?_⟩
          · rw [y_stepN_shift c bc d y0 y2 hstep (k + 1)]
            exact hsN
          · rw [y_conv_shift c bc d y0 y2 hstep k]
            exact hcv2
          · intro j hj
            cases j with
            | zero =>
              exact y_conv_zero_false c bc d y0 y2 hstep
                (by simp only [Nat.dist, CONVERGENCE_THRESHOLD] at *; omega)
            | succ i =>
              rw [y_conv_shift c bc d y0 y2 hstep i]
              exact hmin i (by omega)
      · rename_i hgt
        split at h
        · rename_i hcv
          injection h with h
          subst h
          refine ⟨0, by omega, ?_, ?_, fun j hj => absurd hj (Nat.not_lt_zero j)⟩
          · rw [y_stepN_shift c bc d y0 y2 hstep 0]
            rfl
          · exact y_conv_zero_true c bc d y0 y2 hstep
              (by simp [Nat.dist]; omega)
        · rename_i hcv
          obtain ⟨k, hk, hsN, hcv2, hmin⟩ := ih y2 y h
          refine ⟨k + 1, by omega, ?_, ?_, ?_⟩
          · rw [y_stepN_shift c bc d y0 y2 hstep (k + 1)]
            exact hsN
          · rw [y_conv_shift c bc d y0 y2 hstep k]
            exact hcv2
          · intro j hj
            cases j with
            | zero =>
              exact y_conv_zero_false c bc d y0 y2 hstep
                (by simp only [Nat.dist, CONVERGENCE_THRESHOLD] at *; omega)
            | succ i =>
              rw [y_conv_shift c bc d y0 y2 hstep i]
              exact hmin i (by omega)

/-- Exhaustion of the `calculate_y` Newton loop: if every step in range
succeeds but none converges, the loop returns `ConvergenceFailed`. -/
theorem y_loop_exhaust (c bc d : Nat) :
    ∀ fuel y0,
      (∀ k, k < fuel → ∃ yk, y_stepN c bc d (k + 1) y0 = .ok yk) →
      (∀ k, k < fuel → y_conv c bc d y0 k = false) →
      y_loop c bc d fuel y0 = .error .ConvergenceFailed := by
  intro fuel
  induction fuel with
  | zero =>
    intro y0 _ _
    rfl
  | succ fuel ih =>
    intro y0 hsteps hconvs
    obtain ⟨y1, h1⟩ := hsteps 0 (by omega)
    have hstep : y_step c bc d y0 = .ok y1 := by
      cases hd : y_step c bc d y0 with
      | error e =>
        rw [y_stepN_succ, hd, ebind_error] at h1
        exact Except.noConfusion h1
      | ok v =>
        rw [y_stepN_shift c bc d y0 v hd 0] at h1
        injection h1 with h1
        rw [h1]
    have hfar : ¬ Nat.dist y1 y0 ≤ CONVERGENCE_THRESHOLD := by
      intro hle
      have := hconvs 0 (by omega)
      rw [y_conv_zero_true c bc d y0 y1 hstep hle] at this
      exact Bool.noConfusion this
    rw [y_loop_succ, hstep, ebind_ok]
    have hrec := ih y1
      (fun k hk => by
        rw [← y_stepN_shift c bc d y0 y1 hstep (k + 1)]
        exact hsteps (k + 1) (by omega))
      (fun k hk => by
        rw [← y_conv_shift c bc d y0 y1 hstep k]
        exact hconvs (k + 1) (by omega))
    split
    · rename_i hgt
      rw [if_neg (by simp only [Nat.dist, CONVERGENCE_THRESHOLD] at *; omega)]
      exact hrec
    · rename_i hgt
      rw [if_neg (by simp only [Nat.dist, CONVERGENCE_THRESHOLD] at *; omega)]
      exact hrec

/-- C4: Newton iteration discipline of `calculate_d` and `calculate_y`.
With both balances positive, every successful `calculate_d` result is the
`(k+1)`-st Newton iterate from the seed `S = b + p` for the first index
`k < MAX_ITERATIONS` at which two successive iterates differ by at most
`CONVERGENCE_THRESHOLD` (so the loop runs at most `MAX_ITERATIONS` times,
returns at the first converged step, and never returns an unconverged
value), and if all `MAX_ITERATIONS` steps succeed without converging the
call fails with `ConvergenceFailed`; the same holds for `calculate_y`
iterating from `y0 = D` with its constants `c` and `b`. -/
theorem newton_convergence_discipline :
    (∀ b p a d, 0 < b → 0 < p → calculate_d b p a = .ok d →
      ∃ k, k < MAX_ITERATIONS ∧
        d_stepN b p (a * N_COINS) (b + p) (k + 1) (b + p) = .ok d ∧
        d_conv b p (a * N_COINS) (b + p) (b + p) k = true ∧
        ∀ j, j < k → d_conv b p (a * N_COINS) (b + p) (b + p) j = false) ∧
    (∀ b p a, 0 < b → 0 < p →
      (∀ k, k < MAX_ITERATIONS → ∃ dk,
          d_stepN b p (a * N_COINS) (b + p) (k + 1) (b + p) = .ok dk) →
      (∀ k, k < MAX_ITERATIONS →
          d_conv b p (a * N_COINS) (b + p) (b + p) k = false) →
      calculate_d b p a = .error .ConvergenceFailed) ∧
    (∀ x d0 a y, 0 < x → 0 < d0 → calculate_y x d0 a = .ok y →
      ∃ c bc, calc_c x d0 (a * N_COINS) = .ok c ∧
        calc_b x d0 (a * N_COINS) = .ok bc ∧
        ∃ k, k < MAX_ITERATIONS ∧ y_stepN c bc d0 (k + 1) d0 = .ok y ∧
          y_conv c bc d0 d0 k = true ∧
          ∀ j, j < k → y_conv c bc d0 d0 j = false) ∧
    (∀ x d0 a c bc, 0 < x → 0 < d0 →
      calc_c x d0 (a * N_COINS) = .ok c →
      calc_b x d0 (a * N_COINS) = .ok bc →
      (∀ k, k < MAX_ITERATIONS → ∃ yk, y_stepN c bc d0 (k + 1) d0 = .ok yk) →
      (∀ k, k < MAX_ITERATIONS → y_conv c bc d0 d0 k = false) →
      calculate_y x d0 a = .error .ConvergenceFailed) := by
  refine ⟨?_, ?_, ?_, ?_⟩
  · intro b p a d hb hp h
    simp only [calculate_d] at h
    rw [if_neg (by omega : ¬(b + p = 0))] at h
    exact d_loop_ok_sound b p (a * N_COINS) (b + p) hb hp MAX_ITERATIONS (b + p) d h
  · intro b p a hb hp hsteps hconvs
    simp only [calculate_d]
    rw [if_neg (by omega : ¬(b + p = 0))]
    exact d_loop_exhaust b p (a * N_COINS) (b + p) hb hp MAX_ITERATIONS (b + p)
      hsteps hconvs
  · intro x d0 a y hx hd h
    simp only [calculate_y] at h
    rw [if_neg (by omega : ¬(d0 = 0 ∨ x = 0))] at h
    obtain ⟨c, hc, h⟩ := ebind_ok_inv h
    obtain ⟨bc, hbc, h⟩ := ebind_ok_inv h
    exact ⟨c, bc, hc, hbc, y_loop_ok_sound c bc d0 MAX_ITERATIONS d0 y h⟩
  · intro x d0 a c bc hx hd hc hbc hsteps hconvs
    simp only [calculate_y]
    rw [if_neg (by omega : ¬(d0 = 0 ∨ x = 0)), hc, ebind_ok, hbc, ebind_ok]
    exact y_loop_exhaust c bc d0 MAX_ITERATIONS d0 hsteps hconvs

/-- Witness for C4: at the concrete call `calculate_d 10^9 10^9 1000 = .ok (2*10^9)`
the discipline theorem yields a converged first index below `MAX_ITERATIONS`. -/
theorem newton_convergence_discipline_witness :
    0 < 1000000000 ∧ calculate_d 1000000000 1000000000 1000 = .ok 2000000000 ∧
    ∃ k, k < MAX_ITERATIONS ∧
      d_stepN 1000000000 1000000000 (1000 * N_COINS) (1000000000 + 1000000000)
        (k + 1) (1000000000 + 1000000000) = .ok 2000000000 ∧
      d_conv 1000000000 1000000000 (1000 * N_COINS) (1000000000 + 1000000000)
        (1000000000 + 1000000000) k = true ∧
      ∀ j, j < k →
        d_conv 1000000000 1000000000 (1000 * N_COINS) (1000000000 + 1000000000)
          (1000000000 + 1000000000) j = false :=
  ⟨by decide, by rfl,
    newton_convergence_discipline.1 1000000000 1000000000 1000 2000000000
      (by decide) (by decide) (by rfl)⟩

/-- C3 (counterexample): a successful non-first deposit whose minted LP is
NOT `(D1 - D0) * lp_supply / D0`.  On `hugeGrowthPool` (balances 1/1,
`lp_supply = 1024`, amplification 1) a balanced deposit of `2^54` per side
succeeds with `D0 = 2` and `D1 = 2^55 + 2`, so the claim's quantity is
`(D1 - D0) * 1024 / 2 = 2^64`; the source's `as u64` cast truncates it and
the call mints `2^64 % 2^64 = 0` LP, leaving `lp_supply` unchanged. -/
theorem add_liquidity_mint_truncated_at_huge_growth :
    add_liquidity hugeGrowthPool 1 1 0 (2 ^ 54) (2 ^ 54) 0 =
      .ok (hugeGrowthPoolAfter, 0) ∧
    calculate_d hugeGrowthPool.bags_balance hugeGrowthPool.pump_balance
      (get_current_amplification hugeGrowthPool 0) = .ok 2 ∧
    calculate_d hugeGrowthPoolAfter.bags_balance hugeGrowthPoolAfter.pump_balance
      (get_current_amplification hugeGrowthPool 0) = .ok (2 ^ 55 + 2) ∧
    (2 ^ 55 + 2 - 2) * hugeGrowthPool.lp_supply / 2 = 2 ^ 64 ∧
    (0 : Nat) ≠ 2 ^ 64 :=
  ⟨rfl, rfl, rfl, rfl, by decide⟩
